import Mathlib

/-!
Verification of the tool-calling orchestrator (`src/cli/client.py`) and the
model-battle engine (`src/model_battle.py`) of this repository, by a shallow
embedding in Lean.  External collaborators (the DashScope chat-completion
API, the MCP tool host, and the Python `json` standard-library codec) are
modelled as oracle parameters; everything the repository itself computes is
translated from the source.
-/

set_option maxHeartbeats 1000000

namespace MCP

/-- Python `dict` as an insertion-ordered association list: assignment
`d[k] = v` keeps the position of an existing key and replaces its value,
otherwise appends the new binding at the end. -/
def dictInsert (k : String) (v : α) : List (String × α) → List (String × α)
  | [] => [(k, v)]
  | p :: rest => if p.1 = k then (p.1, v) :: rest else p :: dictInsert k v rest

/-- Python `d[k]` / `d.get(k)`: first (hence only) binding of `k`. -/
def dictGet : List (String × α) → String → Option α
  | [], _ => none
  | p :: rest, k => if p.1 = k then some p.2 else dictGet rest k

/-- Python `d.get(k, v0)`. -/
def dictGetD (d : List (String × α)) (k : String) (v0 : α) : α :=
  (dictGet d k).getD v0

/-- Python `sep.join(l)`. -/
def pyJoin (sep : String) : List String → String
  | [] => ""
  | [a] => a
  | a :: rest => a ++ sep ++ pyJoin sep rest

/-- One comparison step of Python `max(..., key=lambda x: x[1])`: the
running best is replaced only on a strictly greater key. -/
def pyBest (best y : String × ℚ) : String × ℚ :=
  if best.2 < y.2 then y else best

/-- Python `max(items, key=lambda x: x[1])` on a non-empty list: the first
item with maximal second component. -/
def pyMax : List (String × ℚ) → Option (String × ℚ)
  | [] => none
  | x :: xs => some (xs.foldl pyBest x)

/-! ## model_battle.py -/

/-- The `ModelType` enum (lines 15-19). -/
inductive ModelType where
  | dashscope_qwen_audio_turbo_latest
  | dashscope_qwen_vl_max
  | dashscope_qwen
  | dashscope_qwen_max
deriving DecidableEq

/-- The `ModelType.value` string of each enum member. -/
def ModelType.value : ModelType → String
  | .dashscope_qwen_audio_turbo_latest => "qwen-audio-turbo-latest"
  | .dashscope_qwen_vl_max => "qwen-vl-max"
  | .dashscope_qwen => "qwen-turbo"
  | .dashscope_qwen_max => "qwen-max"

/-- A `{score, comment}` pair as produced by `score_response`.  Scores are
Python floats computed from parsed payloads; they are modelled as exact
rationals. -/
structure ScoreResult where
  score : ℚ
  comment : String
deriving DecidableEq

/-- The `ModelResponse` dataclass (lines 21-29).  `scores` is the dict from
scorer model name to its `{score, comment}` verdict. -/
structure ModelResponse where
  model_name : String
  model_type : ModelType
  response : String
  response_time : ℚ
  scores : List (String × ScoreResult)
  token_count : Option Nat
  error : Option String
deriving DecidableEq

/-- The `BattleRound` dataclass (lines 31-35). -/
structure BattleRound where
  round_number : Nat
  responses : List ModelResponse
  scores : List (String × ℚ)
deriving DecidableEq

/-- The `BattleResult` dataclass (lines 37-44). -/
structure BattleResult where
  question : String
  rounds : List BattleRound
  final_scores : List (String × ℚ)
  final_winner : String
  final_answer : String
  timestamp : String
deriving DecidableEq

/-- What one network round trip of `call_dashscope_model` yields: the answer
text, latency, token count and optional error.  This is the oracle side of
the LLM Gateway.  Both error strings built at lines 93 and 103 are non-empty
(they start with a fixed non-empty prefix), so Python truthiness of `.error`
coincides with `Option.isSome` and is modelled that way throughout. -/
structure CallOut where
  response : String
  response_time : ℚ
  token_count : Option Nat
  error : Option String
deriving DecidableEq

/-- Embedding of `call_model` / `call_dashscope_model` (lines 58-105): the network
behavior is the oracle `call`; the function always stamps
`model_name = model_type.value` and an empty `scores` dict. -/
def call_model (call : ModelType → String → CallOut) (model_type : ModelType)
    (prompt : String) : ModelResponse :=
  let o := call model_type prompt
  { model_name := model_type.value, model_type := model_type,
    response := o.response, response_time := o.response_time,
    scores := [], token_count := o.token_count, error := o.error }

/-- Embedding of `generate_scoring_prompt` (lines 107-121), the fixed rubric f-string. -/
def generate_scoring_prompt (question : String) (response : ModelResponse) :
    String :=
  "请对以下AI回答进行评分和简要评价。评分标准如下：\n" ++
  "1. 准确性和完整性 (40分)：回答是否准确、全面地解答了问题\n" ++
  "2. 逻辑性和结构性 (30分)：论述是否清晰、有条理\n" ++
  "3. 创新性和深度 (30分)：是否有独特见解和深入分析\n\n" ++
  "问题：" ++ question ++ "\n\n" ++
  "回答内容：\n" ++ response.response ++ "\n\n" ++
  "请给出总分(0-100分)和简短评价。\n" ++
  "格式要求：只需要返回一个JSON字符串，包含score和comment两个字段，例如：\n" ++
  "\x7b\"score\": 85, \"comment\": \"回答准确全面，逻辑清晰，但创新性略显不足\"\x7d"

/-- Outcome of the Python `json.loads` try-block of `score_response`
(lines 131-137), with the `.get` defaults and `float` coercion already
applied: `ok s c` when the block produces the pair, `decodeError` for
`json.JSONDecodeError` (the regex fallback is then taken), `otherError m`
for any other exception.  `json` is the Python standard library and is
modelled as an oracle. -/
inductive JsonOutcome where
  | ok (score : ℚ) (comment : String)
  | decodeError
  | otherError (msg : String)

/-- Longest leading run of ASCII digits (the regex `\d+`). -/
def digitSpan : List Char → List Char × List Char
  | [] => ([], [])
  | c :: cs =>
    if c.isDigit then
      let p := digitSpan cs
      (c :: p.1, p.2)
    else ([], c :: cs)

/-- Greedy match of `\d+(?:\.\d+)?` anchored at the start of the text. -/
def matchNumberAt (cs : List Char) : Option (List Char) :=
  let p := digitSpan cs
  if p.1.isEmpty then none
  else
    match p.2 with
    | '.' :: rest =>
      let q := digitSpan rest
      if q.1.isEmpty then some p.1 else some (p.1 ++ '.' :: q.1)
    | _ => some p.1

/-- The regex search of line 141: the leftmost match of the number pattern. -/
def searchNumber : List Char → Option (List Char)
  | [] => none
  | c :: cs =>
    match matchNumberAt (c :: cs) with
    | some m => some m
    | none => searchNumber cs

/-- Integer value of a digit run. -/
def digitsToNat (ds : List Char) : Nat :=
  ds.foldl (fun n c => 10 * n + (c.toNat - 48)) 0

/-- Split a matched number at its (single, optional) decimal point. -/
def splitAtDot : List Char → List Char × Option (List Char)
  | [] => ([], none)
  | c :: cs =>
    if c = '.' then ([], some cs)
    else
      let p := splitAtDot cs
      (c :: p.1, p.2)

/-- Python `float(...)` on the matched group `\d+(?:\.\d+)?`. -/
def ratOfNumChars (cs : List Char) : ℚ :=
  match splitAtDot cs with
  | (a, none) => (digitsToNat a : ℚ)
  | (a, some b) => (digitsToNat a : ℚ) + (digitsToNat b : ℚ) / (10 : ℚ) ^ b.length

/-- The payload handling of `score_response` (lines 128-148) applied to the
scoring model's reply: the error branch, the structured branch, the
`JSONDecodeError` regex-and-truncate fallback, and the catch-all branch. -/
def score_payload (jp : String → JsonOutcome) (scoring_response : ModelResponse) :
    ScoreResult :=
  match scoring_response.error with
  | some e => { score := 0, comment := "评分失败: " ++ e }
  | none =>
    match jp scoring_response.response with
    | .ok s c => { score := s, comment := c }
    | .decodeError =>
      let score := match searchNumber scoring_response.response.data with
        | some m => ratOfNumChars m
        | none => 0
      let comment :=
        if scoring_response.response.data.length > 100 then
          String.mk (scoring_response.response.data.take 100) ++ "..."
        else scoring_response.response
      { score := score, comment := comment }
    | .otherError m => { score := 0, comment := "评分解析错误: " ++ m }

/-- Embedding of `score_response` (lines 123-148): issue one Gateway call carrying the
rubric prompt to the scorer model and interpret its payload. -/
def score_response (jp : String → JsonOutcome) (call : ModelType → String → CallOut)
    (question : String) (response : ModelResponse) (scorer_model : ModelType) :
    ScoreResult :=
  score_payload jp (call_model call scorer_model (generate_scoring_prompt question response))

/-- The models at positions `j ≠ i` of the model list, in order: the scorers
chosen for subject index `i` by the `if i != j` test at line 190.  The first
argument of the recursion is the running index `j`. -/
def othersFrom (i : Nat) : Nat → List ModelType → List ModelType
  | _, [] => []
  | j, m :: ms => if i = j then othersFrom i (j + 1) ms else m :: othersFrom i (j + 1) ms

/-- One iteration of the scoring loop (lines 183-197) for the subject at
index `i`: an erroring subject gets an empty `scores` dict and no Gateway
traffic; otherwise every model at another index scores it, in order.  The
second component is the list of scoring Gateway calls issued,
as (scorer, prompt) pairs. -/
def scoreOneSubject (jp : String → JsonOutcome) (call : ModelType → String → CallOut)
    (question : String) (models : List ModelType) (i : Nat) (r : ModelResponse) :
    ModelResponse × List (ModelType × String) :=
  if r.error.isSome then ({ r with scores := [] }, [])
  else
    let scorers := othersFrom i 0 models
    let scoreDict := scorers.foldl
      (fun d sm => dictInsert sm.value (score_response jp call question r sm) d) []
    ({ r with scores := scoreDict },
     scorers.map (fun sm => (sm, generate_scoring_prompt question r)))

/-- The `for i, response in enumerate(responses)` loop of the scoring phase. -/
def scoreSubjects (jp : String → JsonOutcome) (call : ModelType → String → CallOut)
    (question : String) (models : List ModelType) :
    Nat → List ModelResponse → List (ModelResponse × List (ModelType × String))
  | _, [] => []
  | i, r :: rs =>
    scoreOneSubject jp call question models i r ::
      scoreSubjects jp call question models (i + 1) rs

/-- Embedding of `battle_round` (lines 150-213).  The answer phase issues one Gateway
call per model; if fewer than two answers are error-free the round returns
early with all-zero scores, otherwise the scoring phase runs and each
model's round score is the mean of the scores it received (0 for erroring
models).  The second component is the list of scoring Gateway calls issued
in the round. -/
def battle_round (jp : String → JsonOutcome) (call : ModelType → String → CallOut)
    (round_number : Nat) (question : String) (models : List ModelType) :
    BattleRound × List (ModelType × String) :=
  let responses := models.map (fun m => call_model call m question)
  let valid_responses := responses.filter (fun r => r.error.isNone)
  if valid_responses.length < 2 then
    ({ round_number := round_number, responses := responses,
       scores := responses.foldl (fun d r => dictInsert r.model_name 0 d) [] }, [])
  else
    let pairs := scoreSubjects jp call question models 0 responses
    let scored := pairs.map Prod.fst
    let round_scores := scored.foldl (fun d r =>
        dictInsert r.model_name
          (if r.error.isNone && !r.scores.isEmpty then
             let ss := r.scores.map (fun q => q.2.score)
             if ss.isEmpty then 0 else ss.sum / (ss.length : ℚ)
           else 0) d) []
    ({ round_number := round_number, responses := scored, scores := round_scores },
     (pairs.map Prod.snd).flatten)

/-- The round list built by the loop at lines 222-224 (the `3`-second
inter-round sleep has no observable effect here). -/
def battle_rounds (jp : String → JsonOutcome) (call : Nat → ModelType → String → CallOut)
    (question : String) (models : List ModelType) (num_rounds : Nat) : List BattleRound :=
  (List.range num_rounds).map
    (fun rn => (battle_round jp (call rn) (rn + 1) question models).1)

/-- The `final_scores` dict of lines 236-240: per model, the sum of its
round scores. -/
def battle_final_scores (models : List ModelType) (rounds : List BattleRound) :
    List (String × ℚ) :=
  models.foldl (fun d m =>
    dictInsert m.value ((rounds.map (fun r => dictGetD r.scores m.value 0)).sum) d) []

/-- Winner selection of lines 242-245: Python `max` over the dict items by
value (first maximum wins), with the no-contestants sentinel. -/
def battle_winner (final_scores : List (String × ℚ)) : String :=
  match pyMax final_scores with
  | some p => p.1
  | none => "无获胜者"

/-- Embedding of `battle` (lines 215-265).  The Gateway oracle is indexed by the round
counter; the timestamp is an oracle string.  The result is `none` exactly
when `rounds[-1]` raises `IndexError` at line 250. -/
def battle (jp : String → JsonOutcome) (call : Nat → ModelType → String → CallOut)
    (timestamp : String) (question : String) (models : List ModelType)
    (num_rounds : Nat) : Option BattleResult :=
  let rounds := battle_rounds jp call question models num_rounds
  let final_scores := battle_final_scores models rounds
  let final_winner := battle_winner final_scores
  if final_winner = "无获胜者" then
    some { question := question, rounds := rounds, final_scores := final_scores,
           final_winner := final_winner, final_answer := "", timestamp := timestamp }
  else
    match rounds.getLast? with
    | none => none
    | some lastR =>
      let final_answer :=
        match lastR.responses.find? (fun r => r.model_name == final_winner && r.error.isNone) with
        | some r => r.response
        | none => ""
      some { question := question, rounds := rounds, final_scores := final_scores,
             final_winner := final_winner, final_answer := final_answer,
             timestamp := timestamp }

/-- Total score of a model across the rounds of a battle result, as read
back from the per-round score dicts (line 239). -/
def total_score (result : BattleResult) (m : ModelType) : ℚ :=
  (result.rounds.map (fun r => dictGetD r.scores m.value 0)).sum

/-! ## cli/client.py -/

/-- A tool-call object of the Gateway response, in the three shapes the
dispatch at lines 128-139 distinguishes: the object-attribute form
(`hasattr(tool_call, 'function')`), the plain-mapping form
(`isinstance(tool_call, dict)`, where `.get` may yield `None`), and any
other shape.  `id` is `none` when the attribute/key is absent, in which
case the code substitutes `"unknown_id"`. -/
inductive ToolCall where
  | objAttr (name : String) (argumentsStr : String) (id : Option String)
  | dictForm (name : Option String) (argumentsStr : Option String) (id : Option String)
  | unknownShape (repr : String)
deriving DecidableEq

/-- The `(tool_name, tool_args_str, tool_id)` triple extracted at lines
128-139, plus which branch produced it; `none` for the unrecognized shape
(the `continue` at line 139). -/
structure ExtractedCall where
  tool_name : Option String
  tool_args_str : Option String
  tool_id : String
  is_attr : Bool
deriving DecidableEq

def extract_tool_call : ToolCall → Option ExtractedCall
  | .objAttr n a i => some ⟨some n, some a, i.getD "unknown_id", true⟩
  | .dictForm n a i => some ⟨n, a, i.getD "unknown_id", false⟩
  | .unknownShape _ => none

/-- Element of the `tool_calls` list of an appended assistant message
(line 170): the raw tool-call object in the attribute case, the rebuilt
`{"function": {"name", "arguments"}, "id"}` dict otherwise. -/
inductive AssistantPayload where
  | raw (tc : ToolCall)
  | rebuilt (name : Option String) (argumentsStr : Option String) (id : String)
deriving DecidableEq

/-- A transcript message: the seeded user message, an appended assistant
tool-call message (lines 167-171), or a tool-result message (lines
174-178). -/
inductive Message where
  | user (content : String)
  | assistant (content : String) (tool_calls : List AssistantPayload)
  | tool (tool_call_id : String) (content : String)
deriving DecidableEq

/-- A member of a list-shaped `message.content`: a dict with an optional
`'text'` entry; `repr` is what Python `str(item)` prints and is used when
the entry is absent (lines 197 and 211). -/
structure ContentItem where
  text : Option String
  repr : String
deriving DecidableEq

/-- The `message.content` of a Gateway response: either a list of items or any
other object, coerced with `str` (lines 196-199 and 210-213). -/
inductive PyContent where
  | plain (repr : String)
  | items (l : List ContentItem)
deriving DecidableEq

/-- Text extraction from `message.content`. -/
def extract_text : PyContent → String
  | .plain r => r
  | .items l => pyJoin "\n" (l.map (fun it => it.text.getD it.repr))

/-- Outcome of the whole per-call try-block (lines 144-178): `json.loads`
of the argument string, `session.call_tool`, and coercion of the result to
text either all succeed with a final `content` string, or some step raises
and the except-branch at line 180 records `str(e)`. -/
inductive ExecOutcome where
  | success (content : String)
  | failure (msg : String)
deriving DecidableEq

/-- The mutable state of the dispatch loop: the transcript, the
`tool_results` list of `{"call": tool_name, "result": content}` pairs, and
the `final_text` fragments. -/
structure LoopState where
  messages : List Message
  tool_results : List (Option String × String)
  final_text : List String
deriving DecidableEq

def assistant_payload (tc : ToolCall) (ec : ExtractedCall) : AssistantPayload :=
  if ec.is_attr then .raw tc else .rebuilt ec.tool_name ec.tool_args_str ec.tool_id

/-- One iteration of the dispatch loop (lines 127-184): an unrecognized
shape is skipped; a successful call appends its result pair and the
assistant/tool message pair; a failing call appends one failure note. -/
def process_tool_call (execTool : ToolCall → ExecOutcome) (st : LoopState)
    (tc : ToolCall) : LoopState :=
  match extract_tool_call tc with
  | none => st
  | some ec =>
    match execTool tc with
    | .success content =>
      { st with
        tool_results := st.tool_results ++ [(ec.tool_name, content)]
        messages := st.messages ++
          [Message.assistant "" [assistant_payload tc ec],
           Message.tool ec.tool_id content] }
    | .failure e =>
      { st with final_text := st.final_text ++ ["工具调用失败: " ++ e] }

/-- The dispatch loop run on the whole batch, from the seeded transcript. -/
def batch_state (query : String) (execTool : ToolCall → ExecOutcome)
    (batch : List ToolCall) : LoopState :=
  batch.foldl (process_tool_call execTool) ⟨[Message.user query], [], []⟩

/-- The transcript messages one call contributes. -/
def call_messages (execTool : ToolCall → ExecOutcome) (tc : ToolCall) : List Message :=
  match extract_tool_call tc with
  | none => []
  | some ec =>
    match execTool tc with
    | .success content =>
      [Message.assistant "" [assistant_payload tc ec], Message.tool ec.tool_id content]
    | .failure _ => []

/-- The `tool_results` pairs one call contributes. -/
def call_results (execTool : ToolCall → ExecOutcome) (tc : ToolCall) :
    List (Option String × String) :=
  match extract_tool_call tc with
  | none => []
  | some ec =>
    match execTool tc with
    | .success content => [(ec.tool_name, content)]
    | .failure _ => []

/-- The failure notes one call contributes. -/
def call_notes (execTool : ToolCall → ExecOutcome) (tc : ToolCall) : List String :=
  match extract_tool_call tc with
  | none => []
  | some _ =>
    match execTool tc with
    | .success _ => []
    | .failure e => ["工具调用失败: " ++ e]

/-- The first choice's message of a success-status Gateway response:
`content` and the normalized `tool_calls` (the `hasattr`/`dict` probing at
lines 118-122; an absent or `None` field and an empty list both fail the
`if tool_calls:` truthiness test and are modelled as `[]`). -/
structure GatewayMsg where
  content : PyContent
  tool_calls : List ToolCall
deriving DecidableEq

/-- Outcome of one `get_response` invocation: `raised` when
`Generation.call` raises (`get_response` re-raises at line 36), otherwise
the response's status code, error message and first-choice message. -/
inductive GwOutcome where
  | raised (msg : String)
  | returned (status : Nat) (message : String) (output : GatewayMsg)
deriving DecidableEq

/-- Line 215: the join of `final_text`, or the fixed string when it is empty. -/
def joinAnswer (final_text : List String) : String :=
  if final_text.isEmpty then "没有收到有效响应" else pyJoin "\n" final_text

/-- Embedding of `process_query` (lines 88-215).  Oracles: `initOut` for the first
`get_response` call (whose exception would propagate out of
`process_query`, hence the `Except`), `execTool` for the per-call
try-block, `finalOut` for the synthesizing `get_response` call (issued
only when at least one tool call succeeded; its exception is caught at
line 202), and `dumps` for `json.dumps` on the result pairs.  The second
component is the transcript sent on each Gateway call actually issued. -/
def process_query (query : String) (initOut : GwOutcome)
    (execTool : ToolCall → ExecOutcome) (finalOut : GwOutcome)
    (dumps : List (Option String × String) → String) :
    Except String String × List (List Message) :=
  let messages0 : List Message := [Message.user query]
  match initOut with
  | .raised e => (Except.error e, [messages0])
  | .returned status message output =>
    if status ≠ 200 then (Except.ok ("API调用失败: " ++ message), [messages0])
    else if output.tool_calls.isEmpty then
      (Except.ok (joinAnswer [extract_text output.content]), [messages0])
    else
      let st := batch_state query execTool output.tool_calls
      if st.tool_results.isEmpty then
        (Except.ok (joinAnswer st.final_text), [messages0])
      else
        match finalOut with
        | .raised _ =>
          (Except.ok (joinAnswer
            (st.final_text ++ ["工具调用完成: " ++ dumps st.tool_results])),
           [messages0, st.messages])
        | .returned fstatus _ foutput =>
          let ft :=
            if fstatus = 200 then st.final_text ++ [extract_text foutput.content]
            else st.final_text ++ ["获取最终响应失败"]
          (Except.ok (joinAnswer ft), [messages0, st.messages])

/-! ## Concrete oracles for closed instances -/

/-- A `json.loads` oracle that always reports `JSONDecodeError`. -/
def jpDecodeError : String → JsonOutcome := fun _ => .decodeError

/-- A `json.loads` oracle that always parses to `{score: 80, comment: "g"}`. -/
def jpOk80 : String → JsonOutcome := fun _ => .ok 80 "g"

/-- A Gateway oracle on which every call fails. -/
def errCall : ModelType → String → CallOut :=
  fun _ _ => { response := "", response_time := 0, token_count := none,
               error := some "调用失败: down" }

/-- A Gateway oracle on which every call succeeds with a fixed answer. -/
def okCall : ModelType → String → CallOut :=
  fun _ _ => { response := "ans", response_time := 0, token_count := none, error := none }

/-- A Gateway oracle where `qwen-max` always fails and every other model
answers; used to exercise a round in which exactly one model errors. -/
def mixedCall : ModelType → String → CallOut :=
  fun m _ =>
    if m = ModelType.dashscope_qwen_max then
      { response := "", response_time := 0, token_count := none,
        error := some "调用失败: boom" }
    else { response := "ans", response_time := 0, token_count := none, error := none }

/-- The unstructured sample scorer reply quoted in the spec. -/
def sample78 : ModelResponse :=
  { model_name := "qwen-turbo", model_type := .dashscope_qwen,
    response := "I\x27d say about 78 out of 100, solid work",
    response_time := 0, scores := [], token_count := none, error := none }

/-- A digit-free unstructured scorer reply of 101 characters. -/
def longReply : ModelResponse :=
  { model_name := "qwen-turbo", model_type := .dashscope_qwen,
    response := String.mk (List.replicate 101 'a'),
    response_time := 0, scores := [], token_count := none, error := none }

/-! ## Helper lemmas -/

theorem dictGet_dictInsert_self (k : String) (v : α) (d : List (String × α)) :
    dictGet (dictInsert k v d) k = some v := by
  induction d with
  | nil => simp [dictInsert, dictGet]
  | cons p rest ih =>
    by_cases h : p.1 = k
    · simp [dictInsert, dictGet, h]
    · simp [dictInsert, dictGet, h, ih]

theorem dictGet_dictInsert_ne (k k' : String) (v : α) (d : List (String × α))
    (h : k' ≠ k) : dictGet (dictInsert k v d) k' = dictGet d k' := by
  induction d with
  | nil => simp [dictInsert, dictGet, Ne.symm h]
  | cons p rest ih =>
    by_cases hp : p.1 = k
    · simp [dictInsert, dictGet, hp, Ne.symm h]
    · by_cases hk : p.1 = k'
      · simp [dictInsert, dictGet, hp, hk, h]
      · simp [dictInsert, dictGet, hp, hk, ih]

theorem dictGet_fold_zero (rs : List ModelResponse) :
    ∀ (d : List (String × ℚ)) (k : String),
    (dictGet d k = some 0 ∨ k ∈ rs.map ModelResponse.model_name) →
    dictGet (rs.foldl (fun d r => dictInsert r.model_name 0 d) d) k = some 0 := by
  induction rs with
  | nil =>
    intro d k h
    simpa using h.resolve_right (by simp)
  | cons r rs ih =>
    intro d k h
    simp only [List.foldl_cons]
    by_cases hk : k = r.model_name
    · exact ih _ _ (Or.inl (by rw [hk]; exact dictGet_dictInsert_self _ _ _))
    · rcases h with h | h
      · exact ih _ _ (Or.inl (by rw [dictGet_dictInsert_ne _ _ _ _ hk]; exact h))
      · rcases (by simpa using h : k = r.model_name ∨
          k ∈ rs.map ModelResponse.model_name) with h' | h'
        · exact absurd h' hk
        · exact ih _ _ (Or.inr (by simpa using h'))

theorem call_model_model_name (call : ModelType → String → CallOut)
    (m : ModelType) (p : String) : (call_model call m p).model_name = m.value := rfl

theorem call_model_error (call : ModelType → String → CallOut)
    (m : ModelType) (p : String) : (call_model call m p).error = (call m p).error := rfl

theorem call_model_response (call : ModelType → String → CallOut)
    (m : ModelType) (p : String) : (call_model call m p).response = (call m p).response := rfl

theorem value_injective : ∀ {a b : ModelType}, a.value = b.value → a = b := by
  intro a b h
  cases a <;> cases b <;> first
    | rfl
    | exact absurd h (by decide)

theorem value_ne_no_winner (m : ModelType) : m.value ≠ "无获胜者" := by
  cases m <;> decide

theorem foldl_pyMax_mem (xs : List (String × ℚ)) :
    ∀ b : String × ℚ, xs.foldl pyBest b ∈ b :: xs := by
  induction xs with
  | nil => intro b; simp
  | cons x xs ih =>
    intro b
    simp only [List.foldl_cons]
    rcases List.mem_cons.mp (ih (pyBest b x)) with h | h
    · rw [h]
      by_cases hb : b.2 < x.2 <;> simp [pyBest, hb]
    · simp [h]

theorem pyMax_mem (l : List (String × ℚ)) (p : String × ℚ) (h : pyMax l = some p) :
    p ∈ l := by
  cases l with
  | nil => simp [pyMax] at h
  | cons x xs =>
    simp only [pyMax, Option.some.injEq] at h
    rw [← h]
    exact foldl_pyMax_mem xs x

theorem mem_dictInsert (q : String × α) (k : String) (v : α) (d : List (String × α))
    (h : q ∈ dictInsert k v d) : q.1 = k ∨ q ∈ d := by
  induction d with
  | nil =>
    left
    rcases (by simpa [dictInsert] using h) with h'
    rw [h']
  | cons p rest ih =>
    by_cases hp : p.1 = k
    · rcases (by simpa [dictInsert, hp] using h : q = (p.1, v) ∨ q ∈ rest) with h' | h'
      · left; rw [h', ← hp]
      · right; exact List.mem_cons_of_mem _ h'
    · rcases (by simpa [dictInsert, hp] using h : q = p ∨ q ∈ dictInsert k v rest) with h' | h'
      · right; rw [h']; exact List.mem_cons_self _ _
      · rcases ih h' with h'' | h''
        · left; exact h''
        · right; exact List.mem_cons_of_mem _ h''

theorem mem_foldl_dictInsert (f : ModelType → ℚ) (models : List ModelType) :
    ∀ (d0 : List (String × ℚ)) (p : String × ℚ),
      p ∈ models.foldl (fun d m => dictInsert m.value (f m) d) d0 →
      p.1 ∈ models.map ModelType.value ∨ p ∈ d0 := by
  induction models with
  | nil => intro d0 p h; right; simpa using h
  | cons m ms ih =>
    intro d0 p h
    rcases ih _ _ h with h' | h'
    · left; simp [h']
    · rcases mem_dictInsert _ _ _ _ h' with h'' | h''
      · left; simp [h'']
      · right; exact h''

theorem dictInsert_ne_nil (k : String) (v : α) (d : List (String × α)) :
    dictInsert k v d ≠ [] := by
  cases d with
  | nil => simp [dictInsert]
  | cons p rest =>
    by_cases hp : p.1 = k <;> simp [dictInsert, hp]

theorem foldl_dictInsert_eq_nil (f : ModelType → ℚ) (models : List ModelType) :
    ∀ d0 : List (String × ℚ),
      models.foldl (fun d m => dictInsert m.value (f m) d) d0 = [] →
      models = [] ∧ d0 = [] := by
  induction models with
  | nil => intro d0 h; exact ⟨rfl, by simpa using h⟩
  | cons m ms ih =>
    intro d0 h
    exact absurd (ih _ h).2 (dictInsert_ne_nil _ _ _)

theorem dictInsert_append (k : String) (v : α) (d : List (String × α))
    (h : ∀ p ∈ d, p.1 ≠ k) : dictInsert k v d = d ++ [(k, v)] := by
  induction d with
  | nil => simp [dictInsert]
  | cons p rest ih =>
    have hp : p.1 ≠ k := h p (List.mem_cons_self _ _)
    simp only [dictInsert, if_neg hp, List.cons_append, List.cons.injEq, true_and]
    exact ih (fun q hq => h q (List.mem_cons_of_mem _ hq))

theorem foldl_dictInsert_eq_append (f : ModelType → ℚ) (models : List ModelType)
    (hnd : (models.map ModelType.value).Nodup) :
    ∀ d0 : List (String × ℚ), (∀ m ∈ models, ∀ p ∈ d0, p.1 ≠ m.value) →
      models.foldl (fun d m => dictInsert m.value (f m) d) d0 =
        d0 ++ models.map (fun m => (m.value, f m)) := by
  induction models with
  | nil => intro d0 _; simp
  | cons m ms ih =>
    intro d0 hd0
    simp only [List.foldl_cons]
    rw [dictInsert_append m.value (f m) d0 (fun p hp => hd0 m (List.mem_cons_self _ _) p hp)]
    rw [ih (by simpa using hnd.of_cons) (d0 ++ [(m.value, f m)]) ?_]
    · simp
    · intro m' hm' p hp
      rcases List.mem_append.mp hp with h | h
      · exact hd0 m' (List.mem_cons_of_mem _ hm') p h
      · have hpm : p = (m.value, f m) := by simpa using h
        rw [hpm]
        intro hcon
        have : m.value ∈ ms.map ModelType.value :=
          List.mem_map.mpr ⟨m', hm', hcon.symm⟩
        exact (List.nodup_cons.mp (by simpa using hnd)).1 this

theorem dictGet_map_value (f : ModelType → ℚ) (models : List ModelType)
    (hnd : (models.map ModelType.value).Nodup) :
    ∀ m ∈ models, dictGet (models.map (fun m => (m.value, f m))) m.value = some (f m) := by
  induction models with
  | nil => intro m hm; simp at hm
  | cons a ms ih =>
    intro m hm
    by_cases hma : m.value = a.value
    · have : m = a := value_injective hma
      subst this
      simp [dictGet]
    · have hm' : m ∈ ms := by
        rcases List.mem_cons.mp hm with h | h
        · exact absurd (by rw [h]) hma
        · exact h
      simp only [List.map_cons, dictGet]
      rw [if_neg (Ne.symm hma)]
      exact ih (List.nodup_cons.mp (by simpa using hnd)).2 m hm'

theorem foldl_pyBest_spec (xs : List (String × ℚ)) :
    ∀ b : String × ℚ,
      (∀ y ∈ xs, y.2 ≤ (xs.foldl pyBest b).2) ∧
      b.2 ≤ (xs.foldl pyBest b).2 ∧
      (xs.foldl pyBest b = b ∨
        ∃ k, xs.get? k = some (xs.foldl pyBest b) ∧
          b.2 < (xs.foldl pyBest b).2 ∧
          ∀ j q, j < k → xs.get? j = some q → q.2 < (xs.foldl pyBest b).2) := by
  induction xs with
  | nil => intro b; simp
  | cons x xs ih =>
    intro b
    simp only [List.foldl_cons]
    obtain ⟨hball, hb'le, hor⟩ := ih (pyBest b x)
    have hxle : x.2 ≤ (pyBest b x).2 := by
      by_cases hbx : b.2 < x.2
      · simp [pyBest, hbx]
      · simp only [pyBest, if_neg hbx]
        linarith
    have hble : b.2 ≤ (pyBest b x).2 := by
      by_cases hbx : b.2 < x.2
      · simp only [pyBest, if_pos hbx]
        linarith
      · simp [pyBest, hbx]
    refine ⟨?_, le_trans hble hb'le, ?_⟩
    · intro y hy
      rcases List.mem_cons.mp hy with h | h
      · rw [h]; exact le_trans hxle hb'le
      · exact hball y h
    · rcases hor with heq | ⟨k, hk, hlt, hprev⟩
      · rw [heq]
        by_cases hbx : b.2 < x.2
        · right
          refine ⟨0, ?_, ?_, ?_⟩
          · simp [pyBest, hbx]
          · simp [pyBest, hbx]
          · intro j q hj _; omega
        · left; simp [pyBest, hbx]
      · right
        refine ⟨k + 1, by simpa using hk, lt_of_le_of_lt hble hlt, ?_⟩
        intro j q hj hq
        cases j with
        | zero =>
          have hqx : x = q := by simpa using hq
          rw [← hqx]
          exact lt_of_le_of_lt hxle hlt
        | succ j' =>
          exact hprev j' q (by omega) (by simpa using hq)

theorem pyMax_argmax (l : List (String × ℚ)) (p : String × ℚ) (h : pyMax l = some p) :
    ∃ k, l.get? k = some p ∧
      (∀ j q, l.get? j = some q → q.2 ≤ p.2) ∧
      (∀ j q, j < k → l.get? j = some q → q.2 < p.2) := by
  cases l with
  | nil => simp [pyMax] at h
  | cons x xs =>
    have hp : p = xs.foldl pyBest x := by
      simpa [pyMax, eq_comm] using h
    obtain ⟨hall, hxle, hor⟩ := foldl_pyBest_spec xs x
    have hbound : ∀ j q, (x :: xs).get? j = some q → q.2 ≤ p.2 := by
      intro j q hq
      rw [hp]
      cases j with
      | zero =>
        have hqx : x = q := by simpa using hq
        rw [← hqx]; exact hxle
      | succ j' =>
        exact hall q (List.get?_mem (by simpa using hq))
    rcases hor with heq | ⟨k, hk, hlt, hprev⟩
    · refine ⟨0, ?_, hbound, ?_⟩
      · rw [hp, heq]; rfl
      · intro j q hj _; omega
    · refine ⟨k + 1, by rw [hp]; simpa using hk, hbound, ?_⟩
      intro j q hj hq
      rw [hp]
      cases j with
      | zero =>
        have hqx : x = q := by simpa using hq
        rw [← hqx]; exact hlt
      | succ j' =>
        exact hprev j' q (by omega) (by simpa using hq)

theorem battle_rounds_ne_nil (jp : String → JsonOutcome)
    (call : Nat → ModelType → String → CallOut) (question : String)
    (models : List ModelType) (num_rounds : Nat) (hr : 1 ≤ num_rounds) :
    battle_rounds jp call question models num_rounds ≠ [] := by
  simp only [battle_rounds]
  intro hcon
  have h1 := List.map_eq_nil_iff.mp hcon
  have h2 : num_rounds = 0 := by simpa [List.range_eq_nil] using h1
  omega

theorem battle_winner_mem_values (models : List ModelType) (rounds : List BattleRound)
    (hne : models ≠ []) :
    battle_winner (battle_final_scores models rounds) ∈ models.map ModelType.value := by
  rcases hfs : battle_final_scores models rounds with _ | ⟨q, fs⟩
  · exact absurd ((foldl_dictInsert_eq_nil _ _ _ hfs).1) hne
  · have hp : pyMax (battle_final_scores models rounds) =
        some (fs.foldl (fun best y => if best.2 < y.2 then y else best) q) := by
      rw [hfs]; rfl
    have hmem := pyMax_mem _ _ hp
    rcases mem_foldl_dictInsert _ models [] _ hmem with h | h
    · simpa [battle_winner, hp] using h
    · simp at h

theorem scoreOneSubject_fst_fields (jp : String → JsonOutcome)
    (call : ModelType → String → CallOut) (question : String)
    (models : List ModelType) (i : Nat) (r : ModelResponse) :
    (scoreOneSubject jp call question models i r).1.model_name = r.model_name ∧
    (scoreOneSubject jp call question models i r).1.response = r.response ∧
    (scoreOneSubject jp call question models i r).1.error = r.error := by
  unfold scoreOneSubject
  split <;> exact ⟨rfl, rfl, rfl⟩

theorem scoreSubjects_fst_fields (jp : String → JsonOutcome)
    (call : ModelType → String → CallOut) (question : String)
    (models : List ModelType) :
    ∀ (i : Nat) (rs : List ModelResponse),
      ((scoreSubjects jp call question models i rs).map Prod.fst).map
          (fun r => (r.model_name, r.response, r.error)) =
        rs.map (fun r => (r.model_name, r.response, r.error)) := by
  intro i rs
  induction rs generalizing i with
  | nil => rfl
  | cons r rs ih =>
    obtain ⟨h1, h2, h3⟩ := scoreOneSubject_fst_fields jp call question models i r
    simp [scoreSubjects, h1, h2, h3, ih (i + 1)]

theorem battle_round_responses_fields (jp : String → JsonOutcome)
    (call : ModelType → String → CallOut) (rn : Nat) (question : String)
    (models : List ModelType) :
    (battle_round jp call rn question models).1.responses.map
        (fun r => (r.model_name, r.response, r.error)) =
      models.map (fun m =>
        (m.value, (call m question).response, (call m question).error)) := by
  simp only [battle_round]
  split
  · simp [List.map_map, call_model]
  · show ((scoreSubjects jp call question models 0
        (models.map (fun m => call_model call m question))).map Prod.fst).map
          (fun r => (r.model_name, r.response, r.error)) = _
    rw [scoreSubjects_fst_fields]
    simp [List.map_map, call_model]

theorem find_first_by_name (l : List ModelResponse) :
    ∀ (k : Nat) (w : ModelResponse), l.get? k = some w →
      (l.map ModelResponse.model_name).Nodup →
      l.find? (fun r => r.model_name == w.model_name && r.error.isNone) =
        (if w.error.isNone then some w else none) := by
  induction l with
  | nil => intro k w h _; simp at h
  | cons a t ih =>
    intro k w hk hnd
    have hna : a.model_name ∉ t.map ModelResponse.model_name :=
      (List.nodup_cons.mp (by simpa using hnd)).1
    cases k with
    | zero =>
      have haw : a = w := by simpa using hk
      subst haw
      by_cases he : a.error.isNone
      · rw [if_pos he]
        have hpa : (a.model_name == a.model_name && a.error.isNone) = true := by
          simp [he]
        simp [List.find?_cons, hpa, he]
      · rw [if_neg he]
        have hpa : (a.model_name == a.model_name && a.error.isNone) = false := by
          simp [he]
        rw [List.find?_cons]
        simp only [hpa]
        refine List.find?_eq_none.mpr ?_
        intro r hr
        simp only [Bool.and_eq_true, beq_iff_eq, not_and]
        intro hname _
        exact hna (hname ▸ List.mem_map.mpr ⟨r, hr, rfl⟩)
    | succ k' =>
      have hkt : t.get? k' = some w := by simpa using hk
      have hwmem : w ∈ t := List.get?_mem hkt
      have hpa : (a.model_name == w.model_name && a.error.isNone) = false := by
        rw [Bool.and_eq_false_iff]
        left
        simp only [beq_eq_false_iff_ne, ne_eq]
        intro hname
        exact hna (by rw [hname]; exact List.mem_map.mpr ⟨w, hwmem, rfl⟩)
      rw [List.find?_cons]
      simp only [hpa]
      exact ih k' w hkt (List.nodup_cons.mp (by simpa using hnd)).2

theorem mem_of_getLast?_eq (l : List α) (a : α) (h : l.getLast? = some a) :
    a ∈ l := by
  induction l with
  | nil => simp at h
  | cons x t ih =>
    cases t with
    | nil =>
      have hxa : x = a := by simpa using h
      simp [hxa]
    | cons y u =>
      rw [List.getLast?_cons_cons] at h
      exact List.mem_cons_of_mem _ (ih h)

theorem digitSpan_of_not_digit (c : Char) (cs : List Char) (h : ¬ c.isDigit = true) :
    digitSpan (c :: cs) = ([], c :: cs) := by
  simp [digitSpan, h]

theorem searchNumber_eq_none (cs : List Char) (h : ∀ c ∈ cs, ¬ c.isDigit = true) :
    searchNumber cs = none := by
  induction cs with
  | nil => rfl
  | cons c cs ih =>
    have hc : ¬ c.isDigit = true := h c (List.mem_cons_self _ _)
    have hm : matchNumberAt (c :: cs) = none := by
      simp [matchNumberAt, digitSpan_of_not_digit c cs hc]
    simp only [searchNumber, hm]
    exact ih (fun c' hc' => h c' (List.mem_cons_of_mem _ hc'))

/-- Exact round scores of a three-model round `[A, B, C]` in which `A` and
`C` answer error-free: the scorer loop at lines 189-190 selects scorers by
index only, so `B` scores `A` even when `B`'s own answer errored; `A`'s
round score is always the mean of the two scores from `B` and `C`, while
`B`'s round score is the mean of its two received scores when `B` is
error-free and 0 otherwise. -/
theorem battle_round_ABC_scores
    (jp : String → JsonOutcome) (call : ModelType → String → CallOut)
    (rn : Nat) (question : String) (A B C : ModelType)
    (hAB : A ≠ B) (hAC : A ≠ C) (hBC : B ≠ C)
    (eA : (call A question).error = none) (eC : (call C question).error = none) :
    dictGet (battle_round jp call rn question [A, B, C]).1.scores A.value =
      some (((score_response jp call question (call_model call A question) B).score +
             (score_response jp call question (call_model call A question) C).score) / 2) ∧
    dictGet (battle_round jp call rn question [A, B, C]).1.scores B.value =
      some (if (call B question).error.isSome then 0 else
        ((score_response jp call question (call_model call B question) A).score +
         (score_response jp call question (call_model call B question) C).score) / 2) := by
  have hvAB : A.value ≠ B.value := fun h => hAB (value_injective h)
  have hvAC : A.value ≠ C.value := fun h => hAC (value_injective h)
  have hvBC : B.value ≠ C.value := fun h => hBC (value_injective h)
  have hvBA : B.value ≠ A.value := fun h => hAB (value_injective h.symm)
  have hvCA : C.value ≠ A.value := fun h => hAC (value_injective h.symm)
  have hvCB : C.value ≠ B.value := fun h => hBC (value_injective h.symm)
  rcases hB : (call B question).error with _ | err
  · have hguard : ¬ ((([A, B, C].map (fun m => call_model call m question)).filter
        (fun r => r.error.isNone)).length < 2) := by
      simp [call_model, eA, eC, hB]
    unfold battle_round
    rw [if_neg hguard]
    simp only [List.map_cons, List.map_nil]
    simp [scoreSubjects, scoreOneSubject, othersFrom, call_model, eA, eC, hB,
      dictInsert, dictGet, hvAB, hvAC, hvBC, hvBA, hvCA, hvCB]
  · have hguard : ¬ ((([A, B, C].map (fun m => call_model call m question)).filter
        (fun r => r.error.isNone)).length < 2) := by
      simp [call_model, eA, eC, hB]
    unfold battle_round
    rw [if_neg hguard]
    simp only [List.map_cons, List.map_nil]
    simp [scoreSubjects, scoreOneSubject, othersFrom, call_model, eA, eC, hB,
      dictInsert, dictGet, hvAB, hvAC, hvBC, hvBA, hvCA, hvCB]

theorem foldl_process_tool_call (execTool : ToolCall → ExecOutcome)
    (batch : List ToolCall) :
    ∀ st : LoopState,
      batch.foldl (process_tool_call execTool) st =
        { messages := st.messages ++ (batch.map (call_messages execTool)).flatten,
          tool_results := st.tool_results ++ (batch.map (call_results execTool)).flatten,
          final_text := st.final_text ++ (batch.map (call_notes execTool)).flatten } := by
  induction batch with
  | nil => intro st; simp
  | cons tc rest ih =>
    intro st
    simp only [List.foldl_cons, ih]
    rcases hec : extract_tool_call tc with _ | ec
    · simp [process_tool_call, call_messages, call_results, call_notes, hec]
    · rcases hex : execTool tc with content | msg
      · simp [process_tool_call, call_messages, call_results, call_notes, hec, hex]
      · simp [process_tool_call, call_messages, call_results, call_notes, hec, hex]

theorem batch_state_eq (query : String) (execTool : ToolCall → ExecOutcome)
    (batch : List ToolCall) :
    batch_state query execTool batch =
      { messages := [Message.user query] ++ (batch.map (call_messages execTool)).flatten,
        tool_results := (batch.map (call_results execTool)).flatten,
        final_text := (batch.map (call_notes execTool)).flatten } := by
  unfold batch_state
  rw [foldl_process_tool_call]
  rfl

theorem get?_append_pair (xs ys : List α) (a b : α) :
    (xs ++ a :: b :: ys).get? xs.length = some a ∧
    (xs ++ a :: b :: ys).get? (xs.length + 1) = some b := by
  induction xs with
  | nil => simp
  | cons x t ih => simpa using ih

theorem append_ne_empty_left (s t : String) (h : s.length ≠ 0) : s ++ t ≠ "" := by
  intro hc
  have h0 : (s ++ t).length = 0 := by rw [hc]; rfl
  rw [String.length_append] at h0
  omega

theorem pyJoin_cons_length (a : String) (l : List String) :
    a.length ≤ (pyJoin "\n" (a :: l)).length := by
  cases l with
  | nil => simp [pyJoin]
  | cons b t =>
    show a.length ≤ (a ++ "\n" ++ pyJoin "\n" (b :: t)).length
    rw [String.length_append, String.length_append]
    omega

theorem pyJoin_eq_empty (l : List String) (h : pyJoin "\n" l = "") :
    l = [] ∨ l = [""] := by
  match l with
  | [] => exact Or.inl rfl
  | [a] =>
    right
    have : a = "" := h
    rw [this]
  | a :: b :: t =>
    exfalso
    have h0 : (pyJoin "\n" (a :: b :: t)).length = 0 := by rw [h]; rfl
    have h1 : pyJoin "\n" (a :: b :: t) = a ++ "\n" ++ pyJoin "\n" (b :: t) := rfl
    rw [h1, String.length_append, String.length_append] at h0
    have h2 : ("\n" : String).length = 1 := rfl
    omega

theorem append_singleton_eq_single (l : List String) (x y : String)
    (h : l ++ [x] = [y]) : l = [] ∧ x = y := by
  cases l with
  | nil => simpa using h
  | cons a t =>
    exfalso
    have hlen := congrArg List.length h
    simp [List.length_append] at hlen

theorem mem_flatten_call_notes (execTool : ToolCall → ExecOutcome)
    (batch : List ToolCall) (x : String)
    (hx : x ∈ (batch.map (call_notes execTool)).flatten) :
    ∃ e, x = "工具调用失败: " ++ e := by
  rcases List.mem_flatten.mp hx with ⟨l, hl, hxl⟩
  rcases List.mem_map.mp hl with ⟨tc, _, htc⟩
  rw [← htc] at hxl
  unfold call_notes at hxl
  rcases hec : extract_tool_call tc with _ | ec
  · rw [hec] at hxl
    simp at hxl
  · rw [hec] at hxl
    rcases hex : execTool tc with content | msg
    · rw [hex] at hxl
      simp at hxl
    · rw [hex] at hxl
      exact ⟨msg, by simpa using hxl⟩

theorem flatten_notes_length (execTool : ToolCall → ExecOutcome)
    (batch : List ToolCall)
    (hall : ∀ tc ∈ batch, (extract_tool_call tc).isSome ∧
      ∃ e, execTool tc = ExecOutcome.failure e) :
    ((batch.map (call_notes execTool)).flatten).length = batch.length := by
  induction batch with
  | nil => rfl
  | cons tc rest ih =>
    obtain ⟨hsome, e, hex⟩ := hall tc (List.mem_cons_self _ _)
    obtain ⟨ec, hec⟩ := Option.isSome_iff_exists.mp hsome
    simp [call_notes, hec, hex, ih (fun tc' h' => hall tc' (List.mem_cons_of_mem _ h'))]

/-! ## Claims -/

/-- C1 (amended): in a battle round over models `[A, B, C]` with `A` and
`C` error-free, `A`'s round score equals the arithmetic mean of the scores
`B` and `C` gave `A` — including when `B`'s own answer errored, because an
erroring model is excluded as a subject (its round score is 0) but not as
a scorer: the scoring loop selects scorers by index, so `B` is still asked
to score `A` and its score (0 if its scoring call fails) enters the mean. -/
theorem battle_round_mean_aggregation
    (jp : String → JsonOutcome) (call : ModelType → String → CallOut)
    (rn : Nat) (question : String) (A B C : ModelType)
    (hAB : A ≠ B) (hAC : A ≠ C) (hBC : B ≠ C)
    (eA : (call A question).error = none) (eC : (call C question).error = none) :
    dictGet (battle_round jp call rn question [A, B, C]).1.scores A.value =
      some (((score_response jp call question (call_model call A question) B).score +
             (score_response jp call question (call_model call A question) C).score) / 2) ∧
    ((call B question).error.isSome →
      dictGet (battle_round jp call rn question [A, B, C]).1.scores B.value = some 0) := by
  obtain ⟨h1, h2⟩ := battle_round_ABC_scores jp call rn question A B C hAB hAC hBC eA eC
  refine ⟨h1, fun hB => ?_⟩
  rw [h2, if_pos hB]

/-- Witness for C1: with `qwen-max` erroring and the other two models
answering, `qwen-turbo`'s round score is the mean of both received scores
and `qwen-max` scores 0. -/
theorem battle_round_mean_aggregation_witness :
    (mixedCall ModelType.dashscope_qwen "Q").error = none ∧
    (mixedCall ModelType.dashscope_qwen_vl_max "Q").error = none ∧
    (dictGet (battle_round jpOk80 mixedCall 1 "Q"
        [ModelType.dashscope_qwen, ModelType.dashscope_qwen_max,
         ModelType.dashscope_qwen_vl_max]).1.scores (ModelType.dashscope_qwen).value =
      some (((score_response jpOk80 mixedCall "Q"
          (call_model mixedCall ModelType.dashscope_qwen "Q")
          ModelType.dashscope_qwen_max).score +
        (score_response jpOk80 mixedCall "Q"
          (call_model mixedCall ModelType.dashscope_qwen "Q")
          ModelType.dashscope_qwen_vl_max).score) / 2) ∧
    ((mixedCall ModelType.dashscope_qwen_max "Q").error.isSome →
      dictGet (battle_round jpOk80 mixedCall 1 "Q"
        [ModelType.dashscope_qwen, ModelType.dashscope_qwen_max,
         ModelType.dashscope_qwen_vl_max]).1.scores
        (ModelType.dashscope_qwen_max).value = some 0)) :=
  ⟨rfl, rfl,
    battle_round_mean_aggregation jpOk80 mixedCall 1 "Q"
      ModelType.dashscope_qwen ModelType.dashscope_qwen_max
      ModelType.dashscope_qwen_vl_max
      (by decide) (by decide) (by decide) rfl rfl⟩

/-- Counterexample for C1 as stated: with `qwen-max` (`B`) erroring and the
other two error-free, `B` still acts as a scorer of `qwen-turbo` (`A`):
`B`'s failed scoring call contributes 0, `C` gives 80, so `A`'s round score
is 40, not the single score 80 that `C` gave `A` as the claim asserts. -/
theorem battle_round_erroring_scorer_counterexample :
    (mixedCall ModelType.dashscope_qwen "Q").error = none ∧
    (mixedCall ModelType.dashscope_qwen_vl_max "Q").error = none ∧
    (mixedCall ModelType.dashscope_qwen_max "Q").error.isSome = true ∧
    (score_response jpOk80 mixedCall "Q"
      (call_model mixedCall ModelType.dashscope_qwen "Q")
      ModelType.dashscope_qwen_vl_max).score = 80 ∧
    dictGet (battle_round jpOk80 mixedCall 1 "Q"
      [ModelType.dashscope_qwen, ModelType.dashscope_qwen_max,
       ModelType.dashscope_qwen_vl_max]).1.scores (ModelType.dashscope_qwen).value =
      some 40 ∧
    (40 : ℚ) ≠ 80 := by
  have h := (battle_round_ABC_scores jpOk80 mixedCall 1 "Q"
    ModelType.dashscope_qwen ModelType.dashscope_qwen_max
    ModelType.dashscope_qwen_vl_max
    (by decide) (by decide) (by decide) rfl rfl).1
  refine ⟨rfl, rfl, rfl, rfl, ?_, by norm_num⟩
  rw [h]
  have h1 : (score_response jpOk80 mixedCall "Q"
      (call_model mixedCall ModelType.dashscope_qwen "Q")
      ModelType.dashscope_qwen_max).score = 0 := rfl
  have h2 : (score_response jpOk80 mixedCall "Q"
      (call_model mixedCall ModelType.dashscope_qwen "Q")
      ModelType.dashscope_qwen_vl_max).score = 80 := rfl
  rw [h1, h2]
  norm_num

/-- C3 (amended): for a scorer response whose payload fails structured
parsing, the score is the first decimal number in the raw text (0 when the
text contains no digit), and the comment is the raw text itself when it has
at most 100 characters; when the text is longer, the comment is its first
100 characters followed by `"..."` — 103 characters, not the at-most-100
excerpt the claim states.  For the quoted sample text the extracted score
is 78 and the comment is the full text. -/
theorem score_payload_fallback
    (jp : String → JsonOutcome) (sr : ModelResponse)
    (he : sr.error = none) (hjp : jp sr.response = JsonOutcome.decodeError) :
    ((∀ c ∈ sr.response.data, ¬ c.isDigit = true) → (score_payload jp sr).score = 0) ∧
    (sr.response.data.length ≤ 100 → (score_payload jp sr).comment = sr.response) ∧
    (100 < sr.response.data.length →
      (score_payload jp sr).comment = String.mk (sr.response.data.take 100) ++ "..." ∧
      (score_payload jp sr).comment.length = 103) ∧
    (score_payload jpDecodeError sample78).score = 78 ∧
    (score_payload jpDecodeError sample78).comment =
      "I\x27d say about 78 out of 100, solid work" := by
  refine ⟨?_, ?_, ?_, by decide, by decide⟩
  · intro hd
    simp [score_payload, he, hjp, searchNumber_eq_none _ hd]
  · intro hl
    have hn : ¬ (sr.response.data.length > 100) := by omega
    have hn' : ¬ (100 < sr.response.length) := hn
    simp [score_payload, he, hjp, hn, hn']
  · intro hl
    have hl' : 100 < sr.response.length := hl
    refine ⟨by simp [score_payload, he, hjp, hl, hl'], ?_⟩
    simp only [score_payload, he, hjp]
    simp only [if_pos hl]
    rw [String.length_append]
    have h1 : (String.mk (sr.response.data.take 100)).length = 100 := by
      show (sr.response.data.take 100).length = 100
      rw [List.length_take]
      omega
    rw [h1]
    rfl

/-- Witness for C3: the quoted sample reply instantiates the fallback. -/
theorem score_payload_fallback_witness :
    sample78.error = none ∧
    jpDecodeError sample78.response = JsonOutcome.decodeError ∧
    (((∀ c ∈ sample78.response.data, ¬ c.isDigit = true) →
        (score_payload jpDecodeError sample78).score = 0) ∧
      (sample78.response.data.length ≤ 100 →
        (score_payload jpDecodeError sample78).comment = sample78.response) ∧
      (100 < sample78.response.data.length →
        (score_payload jpDecodeError sample78).comment =
          String.mk (sample78.response.data.take 100) ++ "..." ∧
        (score_payload jpDecodeError sample78).comment.length = 103) ∧
      (score_payload jpDecodeError sample78).score = 78 ∧
      (score_payload jpDecodeError sample78).comment =
        "I\x27d say about 78 out of 100, solid work") :=
  ⟨rfl, rfl, score_payload_fallback jpDecodeError sample78 rfl rfl⟩

/-- C6: for every successfully executed tool call, the transcript sent to
the final Gateway call contains the assistant message carrying that
tool-call request immediately followed by the tool-role message carrying
the result, keyed by the identifier extracted from the request. -/
theorem process_query_transcript_pairing
    (query message : String) (output : GatewayMsg)
    (execTool : ToolCall → ExecOutcome) (finalOut : GwOutcome)
    (dumps : List (Option String × String) → String)
    (tc : ToolCall) (ec : ExtractedCall) (content : String)
    (htc : tc ∈ output.tool_calls)
    (hec : extract_tool_call tc = some ec)
    (hex : execTool tc = ExecOutcome.success content) :
    ∃ M n,
      (process_query query (GwOutcome.returned 200 message output) execTool
        finalOut dumps).2 = [[Message.user query], M] ∧
      M.get? n = some (Message.assistant "" [assistant_payload tc ec]) ∧
      M.get? (n + 1) = some (Message.tool ec.tool_id content) := by
  have hne : output.tool_calls.isEmpty = false := by
    rcases hc : output.tool_calls with _ | _
    · rw [hc] at htc; simp at htc
    · rfl
  have hmem_res : (ec.tool_name, content) ∈
      (output.tool_calls.map (call_results execTool)).flatten :=
    List.mem_flatten.mpr ⟨[(ec.tool_name, content)],
      List.mem_map.mpr ⟨tc, htc, by simp [call_results, hec, hex]⟩, by simp⟩
  have hres : (batch_state query execTool output.tool_calls).tool_results.isEmpty =
      false := by
    rw [batch_state_eq]
    show ((output.tool_calls.map (call_results execTool)).flatten).isEmpty = false
    rcases hcase : (output.tool_calls.map (call_results execTool)).flatten with _ | _
    · rw [hcase] at hmem_res; simp at hmem_res
    · rfl
  have hlog : (process_query query (GwOutcome.returned 200 message output) execTool
      finalOut dumps).2 =
      [[Message.user query], (batch_state query execTool output.tool_calls).messages] := by
    rcases finalOut with e | ⟨fs, fm, fo⟩
    · simp [process_query, hne, hres]
    · simp [process_query, hne, hres]
  obtain ⟨l1, l2, hsplit⟩ := List.append_of_mem htc
  refine ⟨(batch_state query execTool output.tool_calls).messages,
    ([Message.user query] ++ (l1.map (call_messages execTool)).flatten).length,
    hlog, ?_, ?_⟩
  · have hmsg : (batch_state query execTool output.tool_calls).messages =
        ([Message.user query] ++ (l1.map (call_messages execTool)).flatten) ++
          Message.assistant "" [assistant_payload tc ec] ::
          Message.tool ec.tool_id content ::
          (l2.map (call_messages execTool)).flatten := by
      rw [batch_state_eq]
      show [Message.user query] ++
        ((output.tool_calls.map (call_messages execTool)).flatten) = _
      rw [hsplit]
      simp [call_messages, hec, hex]
    rw [hmsg]
    exact (get?_append_pair _ _ _ _).1
  · have hmsg : (batch_state query execTool output.tool_calls).messages =
        ([Message.user query] ++ (l1.map (call_messages execTool)).flatten) ++
          Message.assistant "" [assistant_payload tc ec] ::
          Message.tool ec.tool_id content ::
          (l2.map (call_messages execTool)).flatten := by
      rw [batch_state_eq]
      show [Message.user query] ++
        ((output.tool_calls.map (call_messages execTool)).flatten) = _
      rw [hsplit]
      simp [call_messages, hec, hex]
    rw [hmsg]
    exact (get?_append_pair _ _ _ _).2

/-- Witness for C6: a single recognized, succeeding call. -/
theorem process_query_transcript_pairing_witness :
    (ToolCall.objAttr "t" "\x7b\x7d" (some "id1") ∈
      [ToolCall.objAttr "t" "\x7b\x7d" (some "id1")]) ∧
    (extract_tool_call (ToolCall.objAttr "t" "\x7b\x7d" (some "id1")) =
      some ⟨some "t", some "\x7b\x7d", "id1", true⟩) ∧
    ((fun _ => ExecOutcome.success "r") (ToolCall.objAttr "t" "\x7b\x7d" (some "id1")) =
      ExecOutcome.success "r") ∧
    (∃ M n,
      (process_query "q" (GwOutcome.returned 200 "ok"
          { content := PyContent.plain "",
            tool_calls := [ToolCall.objAttr "t" "\x7b\x7d" (some "id1")] })
        (fun _ => ExecOutcome.success "r") (GwOutcome.raised "boom")
        (fun _ => "D")).2 = [[Message.user "q"], M] ∧
      M.get? n = some (Message.assistant ""
        [assistant_payload (ToolCall.objAttr "t" "\x7b\x7d" (some "id1"))
          ⟨some "t", some "\x7b\x7d", "id1", true⟩]) ∧
      M.get? (n + 1) = some (Message.tool "id1" "r")) :=
  ⟨by decide, by decide, rfl,
    process_query_transcript_pairing "q" "ok"
      { content := PyContent.plain "",
        tool_calls := [ToolCall.objAttr "t" "\x7b\x7d" (some "id1")] }
      (fun _ => ExecOutcome.success "r") (GwOutcome.raised "boom") (fun _ => "D")
      (ToolCall.objAttr "t" "\x7b\x7d" (some "id1"))
      ⟨some "t", some "\x7b\x7d", "id1", true⟩ "r"
      (by decide) (by decide) rfl⟩

/-- C7: for a non-empty batch in which every call is recognized and fails,
the answer is the newline-join of the failure notes — one note per call,
in call order — and is non-empty. -/
theorem process_query_all_failures
    (query message : String) (output : GatewayMsg)
    (execTool : ToolCall → ExecOutcome) (finalOut : GwOutcome)
    (dumps : List (Option String × String) → String)
    (hne : output.tool_calls ≠ [])
    (hall : ∀ tc ∈ output.tool_calls, (extract_tool_call tc).isSome ∧
      ∃ e, execTool tc = ExecOutcome.failure e) :
    (process_query query (GwOutcome.returned 200 message output) execTool
        finalOut dumps).1 =
      Except.ok (pyJoin "\n" ((output.tool_calls.map (call_notes execTool)).flatten)) ∧
    ((output.tool_calls.map (call_notes execTool)).flatten).length =
      output.tool_calls.length ∧
    (process_query query (GwOutcome.returned 200 message output) execTool
        finalOut dumps).1 ≠ Except.ok "" := by
  have hlen := flatten_notes_length execTool output.tool_calls hall
  have hresnil : (batch_state query execTool output.tool_calls).tool_results = [] := by
    rw [batch_state_eq]
    show ((output.tool_calls.map (call_results execTool)).flatten) = []
    rw [List.flatten_eq_nil_iff]
    intro l hl
    rcases List.mem_map.mp hl with ⟨tc, htcm, hli⟩
    obtain ⟨hsome, e, hex⟩ := hall tc htcm
    obtain ⟨ec, hec⟩ := Option.isSome_iff_exists.mp hsome
    rw [← hli]
    simp [call_results, hec, hex]
  have hbne : output.tool_calls.isEmpty = false := by
    rcases hc : output.tool_calls with _ | _
    · exact absurd hc hne
    · rfl
  have hnotes_ne : ((output.tool_calls.map (call_notes execTool)).flatten) ≠ [] := by
    intro hcon
    rw [hcon] at hlen
    rcases hc : output.tool_calls with _ | _
    · exact absurd hc hne
    · rw [hc] at hlen; simp at hlen
  have hft : (batch_state query execTool output.tool_calls).final_text =
      (output.tool_calls.map (call_notes execTool)).flatten := by
    rw [batch_state_eq]
  have h1 : (process_query query (GwOutcome.returned 200 message output) execTool
      finalOut dumps).1 =
      Except.ok (pyJoin "\n" ((output.tool_calls.map (call_notes execTool)).flatten)) := by
    have hfe : ((output.tool_calls.map (call_notes execTool)).flatten).isEmpty =
        false := by
      rcases hc : (output.tool_calls.map (call_notes execTool)).flatten with _ | _
      · exact absurd hc hnotes_ne
      · rfl
    simp [process_query, hbne, hresnil, joinAnswer, hft, hfe]
  refine ⟨h1, hlen, ?_⟩
  rw [h1]
  intro hcon
  have hjoin : pyJoin "\n"
      ((output.tool_calls.map (call_notes execTool)).flatten) = "" := by
    simpa using hcon
  rcases hc : (output.tool_calls.map (call_notes execTool)).flatten with _ | ⟨n0, rest⟩
  · exact absurd hc hnotes_ne
  · obtain ⟨e, hn0⟩ := mem_flatten_call_notes execTool output.tool_calls n0
      (by rw [hc]; exact List.mem_cons_self _ _)
    have hlen0 : n0.length ≤ (pyJoin "\n" (n0 :: rest)).length := pyJoin_cons_length _ _
    rw [hc] at hjoin
    rw [hjoin] at hlen0
    rw [hn0, String.length_append] at hlen0
    have : ("工具调用失败: " : String).length = 8 := rfl
    simp at hlen0
    omega

/-- Witness for C7: a batch of two recognized calls that both fail. -/
theorem process_query_all_failures_witness :
    ([ToolCall.objAttr "t" "\x7b\x7d" (some "id1"),
      ToolCall.dictForm (some "u") none none] ≠ ([] : List ToolCall)) ∧
    (∀ tc ∈ [ToolCall.objAttr "t" "\x7b\x7d" (some "id1"),
        ToolCall.dictForm (some "u") none none],
      (extract_tool_call tc).isSome ∧
      ∃ e, (fun _ => ExecOutcome.failure "nope") tc = ExecOutcome.failure e) ∧
    ((process_query "q" (GwOutcome.returned 200 "ok"
        { content := PyContent.plain "",
          tool_calls := [ToolCall.objAttr "t" "\x7b\x7d" (some "id1"),
            ToolCall.dictForm (some "u") none none] })
      (fun _ => ExecOutcome.failure "nope") (GwOutcome.raised "boom")
      (fun _ => "D")).1 =
      Except.ok (pyJoin "\n"
        (([ToolCall.objAttr "t" "\x7b\x7d" (some "id1"),
           ToolCall.dictForm (some "u") none none].map
          (call_notes (fun _ => ExecOutcome.failure "nope"))).flatten)) ∧
     (([ToolCall.objAttr "t" "\x7b\x7d" (some "id1"),
        ToolCall.dictForm (some "u") none none].map
        (call_notes (fun _ => ExecOutcome.failure "nope"))).flatten).length =
       [ToolCall.objAttr "t" "\x7b\x7d" (some "id1"),
        ToolCall.dictForm (some "u") none none].length ∧
     (process_query "q" (GwOutcome.returned 200 "ok"
        { content := PyContent.plain "",
          tool_calls := [ToolCall.objAttr "t" "\x7b\x7d" (some "id1"),
            ToolCall.dictForm (some "u") none none] })
      (fun _ => ExecOutcome.failure "nope") (GwOutcome.raised "boom")
      (fun _ => "D")).1 ≠ Except.ok "") := by
  have hall : ∀ tc ∈ [ToolCall.objAttr "t" "\x7b\x7d" (some "id1"),
      ToolCall.dictForm (some "u") none none],
      (extract_tool_call tc).isSome ∧
      ∃ e, (fun _ => ExecOutcome.failure "nope") tc = ExecOutcome.failure e := by
    intro tc htc
    refine ⟨?_, "nope", rfl⟩
    rcases List.mem_cons.mp htc with h | h
    · rw [h]; rfl
    · rcases List.mem_cons.mp h with h' | h'
      · rw [h']; rfl
      · simp at h'
  exact ⟨by decide, hall,
    process_query_all_failures "q" "ok"
      { content := PyContent.plain "",
        tool_calls := [ToolCall.objAttr "t" "\x7b\x7d" (some "id1"),
          ToolCall.dictForm (some "u") none none] }
      (fun _ => ExecOutcome.failure "nope") (GwOutcome.raised "boom")
      (fun _ => "D") (by decide) hall⟩

/-- C9: tool calls of unrecognized shape are skipped with no failure note
and no transcript messages; a non-empty batch of only such calls yields
the fixed no-valid-response string and no extra Gateway call. -/
theorem process_query_unknown_shape
    (query message : String) (output : GatewayMsg)
    (execTool : ToolCall → ExecOutcome) (finalOut : GwOutcome)
    (dumps : List (Option String × String) → String)
    (hne : output.tool_calls ≠ [])
    (hall : ∀ tc ∈ output.tool_calls, extract_tool_call tc = none) :
    (process_query query (GwOutcome.returned 200 message output) execTool
        finalOut dumps).1 = Except.ok "没有收到有效响应" ∧
    (batch_state query execTool output.tool_calls).messages = [Message.user query] ∧
    (batch_state query execTool output.tool_calls).final_text = [] ∧
    (process_query query (GwOutcome.returned 200 message output) execTool
        finalOut dumps).2 = [[Message.user query]] := by
  have hmsgs : ∀ tc ∈ output.tool_calls, call_messages execTool tc = [] := by
    intro tc h; simp [call_messages, hall tc h]
  have hress : ∀ tc ∈ output.tool_calls, call_results execTool tc = [] := by
    intro tc h; simp [call_results, hall tc h]
  have hnotes : ∀ tc ∈ output.tool_calls, call_notes execTool tc = [] := by
    intro tc h; simp [call_notes, hall tc h]
  have hbne : output.tool_calls.isEmpty = false := by
    rcases hc : output.tool_calls with _ | _
    · exact absurd hc hne
    · rfl
  have hflat : ∀ {α : Type} (f : ToolCall → List α),
      (∀ tc ∈ output.tool_calls, f tc = []) →
      (output.tool_calls.map f).flatten = [] := by
    intro α f hf
    rw [List.flatten_eq_nil_iff]
    intro l hl
    rcases List.mem_map.mp hl with ⟨tc, htcm, hli⟩
    rw [← hli]
    exact hf tc htcm
  have hstate := batch_state_eq query execTool output.tool_calls
  have hm : (batch_state query execTool output.tool_calls).messages =
      [Message.user query] := by
    rw [hstate]
    show [Message.user query] ++
      ((output.tool_calls.map (call_messages execTool)).flatten) = _
    rw [hflat _ hmsgs]
    rfl
  have hr : (batch_state query execTool output.tool_calls).tool_results = [] := by
    rw [hstate]
    exact hflat _ hress
  have hf : (batch_state query execTool output.tool_calls).final_text = [] := by
    rw [hstate]
    exact hflat _ hnotes
  refine ⟨?_, hm, hf, ?_⟩
  · simp [process_query, hbne, hr, hf, joinAnswer]
  · simp [process_query, hbne, hr, hf]

/-- Witness for C9: a batch of one unrecognized call. -/
theorem process_query_unknown_shape_witness :
    ([ToolCall.unknownShape "weird"] ≠ ([] : List ToolCall)) ∧
    (∀ tc ∈ [ToolCall.unknownShape "weird"], extract_tool_call tc = none) ∧
    ((process_query "q" (GwOutcome.returned 200 "ok"
        { content := PyContent.plain "",
          tool_calls := [ToolCall.unknownShape "weird"] })
      (fun _ => ExecOutcome.failure "nope") (GwOutcome.raised "boom")
      (fun _ => "D")).1 = Except.ok "没有收到有效响应" ∧
     (batch_state "q" (fun _ => ExecOutcome.failure "nope")
        [ToolCall.unknownShape "weird"]).messages = [Message.user "q"] ∧
     (batch_state "q" (fun _ => ExecOutcome.failure "nope")
        [ToolCall.unknownShape "weird"]).final_text = [] ∧
     (process_query "q" (GwOutcome.returned 200 "ok"
        { content := PyContent.plain "",
          tool_calls := [ToolCall.unknownShape "weird"] })
      (fun _ => ExecOutcome.failure "nope") (GwOutcome.raised "boom")
      (fun _ => "D")).2 = [[Message.user "q"]]) :=
  ⟨by decide, by decide,
   process_query_unknown_shape "q" "ok"
     { content := PyContent.plain "",
       tool_calls := [ToolCall.unknownShape "weird"] }
     (fun _ => ExecOutcome.failure "nope") (GwOutcome.raised "boom")
     (fun _ => "D") (by decide) (by decide)⟩

/-- C2 (amended): whenever at least one tool call in the batch succeeded,
exactly one additional Gateway call is issued, with the updated transcript;
if that final call raises an exception, the answer falls back to the failure
notes plus the dumped raw list of succeeded {tool name, result} pairs; if
it instead returns a non-success status, the answer carries a fixed
failure message, not the raw list. -/
theorem process_query_final_call
    (query message : String) (output : GatewayMsg)
    (execTool : ToolCall → ExecOutcome) (finalOut : GwOutcome)
    (dumps : List (Option String × String) → String)
    (hsucc : ∃ tc ∈ output.tool_calls, ∃ ec content,
      extract_tool_call tc = some ec ∧ execTool tc = ExecOutcome.success content) :
    (process_query query (GwOutcome.returned 200 message output) execTool
        finalOut dumps).2 =
      [[Message.user query],
       (batch_state query execTool output.tool_calls).messages] ∧
    (batch_state query execTool output.tool_calls).tool_results =
      (output.tool_calls.map (call_results execTool)).flatten ∧
    (∀ e, finalOut = GwOutcome.raised e →
      (process_query query (GwOutcome.returned 200 message output) execTool
          finalOut dumps).1 =
        Except.ok (pyJoin "\n"
          ((output.tool_calls.map (call_notes execTool)).flatten ++
            ["工具调用完成: " ++
              dumps ((output.tool_calls.map (call_results execTool)).flatten)]))) ∧
    (∀ fs fm fo, finalOut = GwOutcome.returned fs fm fo → fs ≠ 200 →
      (process_query query (GwOutcome.returned 200 message output) execTool
          finalOut dumps).1 =
        Except.ok (pyJoin "\n"
          ((output.tool_calls.map (call_notes execTool)).flatten ++
            ["获取最终响应失败"]))) := by
  obtain ⟨tc, htc, ec, content, hec, hex⟩ := hsucc
  have hne : output.tool_calls.isEmpty = false := by
    rcases hc : output.tool_calls with _ | _
    · rw [hc] at htc; simp at htc
    · rfl
  have hmem_res : (ec.tool_name, content) ∈
      (output.tool_calls.map (call_results execTool)).flatten :=
    List.mem_flatten.mpr ⟨[(ec.tool_name, content)],
      List.mem_map.mpr ⟨tc, htc, by simp [call_results, hec, hex]⟩, by simp⟩
  have hres : (batch_state query execTool output.tool_calls).tool_results.isEmpty =
      false := by
    rw [batch_state_eq]
    show ((output.tool_calls.map (call_results execTool)).flatten).isEmpty = false
    rcases hcase : (output.tool_calls.map (call_results execTool)).flatten with _ | _
    · rw [hcase] at hmem_res; simp at hmem_res
    · rfl
  refine ⟨?_, by rw [batch_state_eq], ?_, ?_⟩
  · rcases finalOut with e | ⟨fs, fm, fo⟩
    · simp [process_query, hne, hres]
    · simp [process_query, hne, hres]
  · intro e hfe
    have hje : ((batch_state query execTool output.tool_calls).final_text ++
        ["工具调用完成: " ++
          dumps (batch_state query execTool output.tool_calls).tool_results]).isEmpty =
        false := by simp
    simp only [process_query, hne, hres, hfe, Bool.false_eq_true, if_false,
      ne_eq, not_true_eq_false, if_true]
    simp [joinAnswer, hje, batch_state_eq]
  · intro fs fm fo hfo hfs
    have hje : ((batch_state query execTool output.tool_calls).final_text ++
        ["获取最终响应失败"]).isEmpty = false := by simp
    simp only [process_query, hne, hres, hfo, Bool.false_eq_true, if_false,
      ne_eq, not_true_eq_false, if_true]
    simp [joinAnswer, hje, batch_state_eq, hfs]

/-- Witness for C2: one successful call with the final Gateway call
raising. -/
theorem process_query_final_call_witness :
    (∃ tc ∈ [ToolCall.objAttr "t" "\x7b\x7d" (some "id1")], ∃ ec content,
      extract_tool_call tc = some ec ∧
      (fun _ => ExecOutcome.success "r") tc = ExecOutcome.success content) ∧
    ((process_query "q" (GwOutcome.returned 200 "ok"
        { content := PyContent.plain "",
          tool_calls := [ToolCall.objAttr "t" "\x7b\x7d" (some "id1")] })
      (fun _ => ExecOutcome.success "r") (GwOutcome.raised "boom")
      (fun _ => "D")).2 =
      [[Message.user "q"],
       (batch_state "q" (fun _ => ExecOutcome.success "r")
         [ToolCall.objAttr "t" "\x7b\x7d" (some "id1")]).messages]) ∧
    ((process_query "q" (GwOutcome.returned 200 "ok"
        { content := PyContent.plain "",
          tool_calls := [ToolCall.objAttr "t" "\x7b\x7d" (some "id1")] })
      (fun _ => ExecOutcome.success "r") (GwOutcome.raised "boom")
      (fun _ => "D")).1 = Except.ok "工具调用完成: D") :=
  ⟨⟨ToolCall.objAttr "t" "\x7b\x7d" (some "id1"), List.mem_cons_self _ _,
    ⟨some "t", some "\x7b\x7d", "id1", true⟩, "r", rfl, rfl⟩,
   (process_query_final_call "q" "ok"
      { content := PyContent.plain "",
        tool_calls := [ToolCall.objAttr "t" "\x7b\x7d" (some "id1")] }
      (fun _ => ExecOutcome.success "r") (GwOutcome.raised "boom") (fun _ => "D")
      ⟨ToolCall.objAttr "t" "\x7b\x7d" (some "id1"), List.mem_cons_self _ _,
        ⟨some "t", some "\x7b\x7d", "id1", true⟩, "r", rfl, rfl⟩).1,
   rfl⟩

/-- Counterexample for C2 as stated: one tool call succeeded, and the final
Gateway call fails by returning status 500; the answer is the fixed failure
message, not the raw {tool name, result} list the claim asserts. -/
theorem process_query_non200_final_counterexample :
    (process_query "q" (GwOutcome.returned 200 "ok"
        { content := PyContent.plain "",
          tool_calls := [ToolCall.objAttr "t" "\x7b\x7d" (some "id1")] })
      (fun _ => ExecOutcome.success "r")
      (GwOutcome.returned 500 "err" { content := PyContent.plain "", tool_calls := [] })
      (fun _ => "D")).1 = Except.ok "获取最终响应失败" ∧
    ("获取最终响应失败" : String) ≠ "工具调用完成: D" ∧
    (500 : Nat) ≠ 200 :=
  ⟨rfl, by decide, by decide⟩

/-- C8 (amended): whenever the initial Gateway call returns (rather than
raising), `process_query` returns some text; on a non-success status that
text is a non-empty failure description; the returned text can be empty
only when a success-status Gateway answer's extracted text is itself
empty. -/
theorem process_query_returns_text
    (query : String) (status : Nat) (message : String) (output : GatewayMsg)
    (execTool : ToolCall → ExecOutcome) (finalOut : GwOutcome)
    (dumps : List (Option String × String) → String) :
    (∃ t, (process_query query (GwOutcome.returned status message output) execTool
        finalOut dumps).1 = Except.ok t) ∧
    (status ≠ 200 →
      (process_query query (GwOutcome.returned status message output) execTool
          finalOut dumps).1 = Except.ok ("API调用失败: " ++ message) ∧
      ("API调用失败: " ++ message) ≠ "") ∧
    ((process_query query (GwOutcome.returned status message output) execTool
        finalOut dumps).1 = Except.ok "" →
      status = 200 ∧
        ((output.tool_calls = [] ∧ extract_text output.content = "") ∨
         (∃ fm fo, finalOut = GwOutcome.returned 200 fm fo ∧
           extract_text fo.content = ""))) := by
  have hprefix : ("API调用失败: " : String).length ≠ 0 := by decide
  refine ⟨?_, ?_, ?_⟩
  · by_cases hs : status = 200
    · subst hs
      by_cases hb : output.tool_calls.isEmpty
      · exact ⟨joinAnswer [extract_text output.content],
          by simp [process_query, hb]⟩
      · by_cases hres :
            (batch_state query execTool output.tool_calls).tool_results.isEmpty
        · exact ⟨joinAnswer (batch_state query execTool output.tool_calls).final_text,
            by simp [process_query, hb, hres]⟩
        · rcases hfo : finalOut with e | ⟨fs, fm, fo⟩
          · exact ⟨joinAnswer
              ((batch_state query execTool output.tool_calls).final_text ++
                ["工具调用完成: " ++ dumps (batch_state query execTool
                  output.tool_calls).tool_results]),
              by simp [process_query, hb, hres, hfo]⟩
          · by_cases hfs : fs = 200
            · exact ⟨joinAnswer
                ((batch_state query execTool output.tool_calls).final_text ++
                  [extract_text fo.content]),
                by simp [process_query, hb, hres, hfo, hfs]⟩
            · exact ⟨joinAnswer
                ((batch_state query execTool output.tool_calls).final_text ++
                  ["获取最终响应失败"]),
                by simp [process_query, hb, hres, hfo, hfs]⟩
    · exact ⟨"API调用失败: " ++ message, by simp [process_query, hs]⟩
  · intro hs
    exact ⟨by simp [process_query, hs], append_ne_empty_left _ _ hprefix⟩
  · intro hok
    by_cases hs : status = 200
    · subst hs
      refine ⟨rfl, ?_⟩
      by_cases hb : output.tool_calls.isEmpty
      · left
        have hbn : output.tool_calls = [] := by
          rcases hc : output.tool_calls with _ | _
          · rfl
          · rw [hc] at hb; simp at hb
        have h1 : (process_query query (GwOutcome.returned 200 message output)
            execTool finalOut dumps).1 =
            Except.ok (extract_text output.content) := by
          simp [process_query, hb, joinAnswer, pyJoin]
        rw [h1] at hok
        exact ⟨hbn, by simpa using hok⟩
      · by_cases hres :
            (batch_state query execTool output.tool_calls).tool_results.isEmpty
        · exfalso
          have h1 : (process_query query (GwOutcome.returned 200 message output)
              execTool finalOut dumps).1 =
              Except.ok (joinAnswer
                (batch_state query execTool output.tool_calls).final_text) := by
            simp [process_query, hb, hres]
          rw [h1] at hok
          have hj : joinAnswer
              (batch_state query execTool output.tool_calls).final_text = "" := by
            simpa using hok
          by_cases hfe : (batch_state query execTool output.tool_calls).final_text.isEmpty
          · unfold joinAnswer at hj
            rw [if_pos hfe] at hj
            exact absurd hj (by decide)
          · unfold joinAnswer at hj
            rw [if_neg (by simp [hfe])] at hj
            rcases pyJoin_eq_empty _ hj with hl | hl
            · rw [hl] at hfe; simp at hfe
            · have hmem : "" ∈
                  (batch_state query execTool output.tool_calls).final_text := by
                rw [hl]; simp
              have hmem' : "" ∈
                  (output.tool_calls.map (call_notes execTool)).flatten := by
                have hst := batch_state_eq query execTool output.tool_calls
                rw [hst] at hmem
                exact hmem
              obtain ⟨e, hcon⟩ :=
                mem_flatten_call_notes execTool output.tool_calls "" hmem'
              exact absurd hcon.symm (append_ne_empty_left _ _ (by decide))
        · rcases hfo : finalOut with e | ⟨fs, fm, fo⟩
          · exfalso
            have h1 : (process_query query (GwOutcome.returned 200 message output)
                execTool finalOut dumps).1 =
                Except.ok (joinAnswer
                  ((batch_state query execTool output.tool_calls).final_text ++
                    ["工具调用完成: " ++ dumps (batch_state query execTool
                      output.tool_calls).tool_results])) := by
              simp [process_query, hb, hres, hfo]
            rw [h1] at hok
            have hj : joinAnswer
                ((batch_state query execTool output.tool_calls).final_text ++
                  ["工具调用完成: " ++ dumps (batch_state query execTool
                    output.tool_calls).tool_results]) = "" := by
              simpa using hok
            unfold joinAnswer at hj
            rw [if_neg (by simp)] at hj
            rcases pyJoin_eq_empty _ hj with hl | hl
            · simp at hl
            · have hlast := (append_singleton_eq_single _ _ _ hl).2
              exact absurd hlast (append_ne_empty_left _ _ (by decide))
          · by_cases hfs : fs = 200
            · right
              subst hfs
              refine ⟨fm, fo, rfl, ?_⟩
              have h1 : (process_query query (GwOutcome.returned 200 message output)
                  execTool finalOut dumps).1 =
                  Except.ok (joinAnswer
                    ((batch_state query execTool output.tool_calls).final_text ++
                      [extract_text fo.content])) := by
                simp [process_query, hb, hres, hfo]
              rw [h1] at hok
              have hj : joinAnswer
                  ((batch_state query execTool output.tool_calls).final_text ++
                    [extract_text fo.content]) = "" := by
                simpa using hok
              unfold joinAnswer at hj
              rw [if_neg (by simp)] at hj
              rcases pyJoin_eq_empty _ hj with hl | hl
              · simp at hl
              · exact (append_singleton_eq_single _ _ _ hl).2
            · exfalso
              have h1 : (process_query query (GwOutcome.returned 200 message output)
                  execTool finalOut dumps).1 =
                  Except.ok (joinAnswer
                    ((batch_state query execTool output.tool_calls).final_text ++
                      ["获取最终响应失败"])) := by
                simp [process_query, hb, hres, hfo, hfs]
              rw [h1] at hok
              have hj : joinAnswer
                  ((batch_state query execTool output.tool_calls).final_text ++
                    ["获取最终响应失败"]) = "" := by
                simpa using hok
              unfold joinAnswer at hj
              rw [if_neg (by simp)] at hj
              rcases pyJoin_eq_empty _ hj with hl | hl
              · simp at hl
              · exact absurd (append_singleton_eq_single _ _ _ hl).2 (by decide)
    · exfalso
      have h1 : (process_query query (GwOutcome.returned status message output)
          execTool finalOut dumps).1 =
          Except.ok ("API调用失败: " ++ message) := by
        simp [process_query, hs]
      rw [h1] at hok
      exact absurd (by simpa using hok) (append_ne_empty_left _ _ hprefix)

/-- Witness for C8: a failing initial status yields the non-empty failure
description, and the empty-answer case is reachable only through an empty
200-status text. -/
theorem process_query_returns_text_witness :
    (∃ t, (process_query "q" (GwOutcome.returned 500 "err"
        { content := PyContent.plain "", tool_calls := [] })
      (fun _ => ExecOutcome.failure "nope") (GwOutcome.raised "boom")
      (fun _ => "D")).1 = Except.ok t) ∧
    ((500 : Nat) ≠ 200) ∧
    ((process_query "q" (GwOutcome.returned 500 "err"
        { content := PyContent.plain "", tool_calls := [] })
      (fun _ => ExecOutcome.failure "nope") (GwOutcome.raised "boom")
      (fun _ => "D")).1 = Except.ok ("API调用失败: " ++ "err") ∧
      ("API调用失败: " ++ "err") ≠ "") ∧
    ((process_query "q" (GwOutcome.returned 200 "ok"
        { content := PyContent.plain "", tool_calls := [] })
      (fun _ => ExecOutcome.failure "nope") (GwOutcome.raised "boom")
      (fun _ => "D")).1 = Except.ok "" →
      (200 : Nat) = 200 ∧
        (({ content := PyContent.plain "", tool_calls := [] } :
            GatewayMsg).tool_calls = [] ∧
          extract_text ({ content := PyContent.plain "", tool_calls := [] } :
            GatewayMsg).content = "") ∨
         (∃ fm fo, (GwOutcome.raised "boom") = GwOutcome.returned 200 fm fo ∧
           extract_text fo.content = "")) :=
  ⟨(process_query_returns_text "q" 500 "err"
      { content := PyContent.plain "", tool_calls := [] }
      (fun _ => ExecOutcome.failure "nope") (GwOutcome.raised "boom")
      (fun _ => "D")).1,
   by decide,
   (process_query_returns_text "q" 500 "err"
      { content := PyContent.plain "", tool_calls := [] }
      (fun _ => ExecOutcome.failure "nope") (GwOutcome.raised "boom")
      (fun _ => "D")).2.1 (by decide),
   fun h => Or.inl ⟨rfl,
    ((process_query_returns_text "q" 200 "ok"
      { content := PyContent.plain "", tool_calls := [] }
      (fun _ => ExecOutcome.failure "nope") (GwOutcome.raised "boom")
      (fun _ => "D")).2.2 h).2.resolve_right (by rintro ⟨fm, fo, hcon, _⟩; cases hcon)⟩⟩

/-- Counterexample for C8 as stated: a success-status Gateway response with
no tool calls and empty content makes `process_query` return the empty
string — not non-empty text. -/
theorem process_query_empty_answer_counterexample :
    (process_query "q" (GwOutcome.returned 200 "ok"
        { content := PyContent.plain "", tool_calls := [] })
      (fun _ => ExecOutcome.failure "nope") (GwOutcome.raised "boom")
      (fun _ => "D")).1 = Except.ok "" ∧
    ("" : String).length = 0 :=
  ⟨rfl, rfl⟩

/-- Counterexample for C3 as stated: a digit-free 101-character reply that
is not structured gets as fallback comment its first 100 characters plus
`"..."` — 103 characters, more than the at-most-100-character excerpt the
claim asserts. -/
theorem score_payload_comment_counterexample :
    longReply.error = none ∧
    (score_payload jpDecodeError longReply).comment.length = 103 ∧
    ¬ ((score_payload jpDecodeError longReply).comment.length ≤ 100) :=
  ⟨rfl, by decide, by decide⟩

/-- C4: battle finalization.  Each model's final score is the sum (not the
mean) of its per-round scores; the winner is the first model in the
supplied list attaining the maximal total (ties broken by iteration
order); the final answer is the winner's answer text from the last round
only, and is empty when the winner errored in the last round. -/
theorem battle_finalization
    (jp : String → JsonOutcome) (call : Nat → ModelType → String → CallOut)
    (timestamp question : String) (models : List ModelType) (num_rounds : Nat)
    (hne : models ≠ []) (hnd : (models.map ModelType.value).Nodup)
    (hr : 1 ≤ num_rounds) :
    ∃ result, battle jp call timestamp question models num_rounds = some result ∧
      (∀ m ∈ models, dictGet result.final_scores m.value = some (total_score result m)) ∧
      (∃ k m, models.get? k = some m ∧ result.final_winner = m.value ∧
        (∀ j m', models.get? j = some m' →
          total_score result m' ≤ total_score result m) ∧
        (∀ j m', j < k → models.get? j = some m' →
          total_score result m' < total_score result m)) ∧
      (∃ lastR w, result.rounds.getLast? = some lastR ∧ w ∈ lastR.responses ∧
        w.model_name = result.final_winner ∧
        result.final_answer = (if w.error.isNone then w.response else "")) := by
  have hfs : battle_final_scores models
        (battle_rounds jp call question models num_rounds) =
      models.map (fun m => (m.value,
        ((battle_rounds jp call question models num_rounds).map
          (fun r => dictGetD r.scores m.value 0)).sum)) := by
    unfold battle_final_scores
    rw [foldl_dictInsert_eq_append _ models hnd [] (by intro m _ p hp; simp at hp)]
    simp
  obtain ⟨p, hp⟩ : ∃ p, pyMax (battle_final_scores models
      (battle_rounds jp call question models num_rounds)) = some p := by
    rcases hm : models with _ | ⟨a, ms⟩
    · exact absurd hm hne
    · rw [← hm, hfs, hm]
      exact ⟨_, rfl⟩
  have hwinner : battle_winner (battle_final_scores models
      (battle_rounds jp call question models num_rounds)) = p.1 := by
    simp [battle_winner, hp]
  obtain ⟨k, hk, hub, hprev⟩ := pyMax_argmax _ p hp
  rw [hfs, List.get?_map] at hk
  obtain ⟨m, hm_get, hgm⟩ := Option.map_eq_some'.mp hk
  have hp1 : p.1 = m.value := by rw [← hgm]
  have hp2 : p.2 = ((battle_rounds jp call question models num_rounds).map
      (fun r => dictGetD r.scores m.value 0)).sum := by rw [← hgm]
  have hwne : ¬ (battle_winner (battle_final_scores models
      (battle_rounds jp call question models num_rounds)) = "无获胜者") := by
    rw [hwinner, hp1]
    exact value_ne_no_winner m
  have hrne := battle_rounds_ne_nil jp call question models num_rounds hr
  obtain ⟨lastR, hlast⟩ : ∃ lastR,
      (battle_rounds jp call question models num_rounds).getLast? = some lastR := by
    rcases hl : (battle_rounds jp call question models num_rounds).getLast? with _ | r
    · exact absurd (List.getLast?_eq_none_iff.mp hl) hrne
    · exact ⟨r, rfl⟩
  refine ⟨{ question := question,
            rounds := battle_rounds jp call question models num_rounds,
            final_scores := battle_final_scores models
              (battle_rounds jp call question models num_rounds),
            final_winner := battle_winner (battle_final_scores models
              (battle_rounds jp call question models num_rounds)),
            final_answer := match lastR.responses.find? (fun r =>
                r.model_name == battle_winner (battle_final_scores models
                  (battle_rounds jp call question models num_rounds)) &&
                r.error.isNone) with
              | some r => r.response
              | none => "",
            timestamp := timestamp }, ?_, ?_, ?_, ?_⟩
  · simp only [battle]
    rw [if_neg hwne, hlast]
  · intro m' hm'
    show dictGet (battle_final_scores models
        (battle_rounds jp call question models num_rounds)) m'.value = _
    rw [hfs]
    exact dictGet_map_value _ models hnd m' hm'
  · refine ⟨k, m, hm_get, hwinner.trans hp1, ?_, ?_⟩
    · intro j m' hj
      have hj' : (battle_final_scores models
          (battle_rounds jp call question models num_rounds)).get? j =
          some (m'.value, total_score
            { question := question,
              rounds := battle_rounds jp call question models num_rounds,
              final_scores := battle_final_scores models
                (battle_rounds jp call question models num_rounds),
              final_winner := battle_winner (battle_final_scores models
                (battle_rounds jp call question models num_rounds)),
              final_answer := "", timestamp := timestamp } m') := by
        rw [hfs, List.get?_map, hj]
        rfl
      have := hub j _ hj'
      simpa [total_score, hp2] using this
    · intro j m' hjk hj
      have hj' : (battle_final_scores models
          (battle_rounds jp call question models num_rounds)).get? j =
          some (m'.value, total_score
            { question := question,
              rounds := battle_rounds jp call question models num_rounds,
              final_scores := battle_final_scores models
                (battle_rounds jp call question models num_rounds),
              final_winner := battle_winner (battle_final_scores models
                (battle_rounds jp call question models num_rounds)),
              final_answer := "", timestamp := timestamp } m') := by
        rw [hfs, List.get?_map, hj]
        rfl
      have := hprev j _ hjk hj'
      simpa [total_score, hp2] using this
  · have hmem : ∃ a, a < num_rounds ∧
        (battle_round jp (call a) (a + 1) question models).1 = lastR := by
      simpa [battle_rounds] using mem_of_getLast?_eq _ _ hlast
    obtain ⟨rn, _, hlr⟩ := hmem
    have hfields := battle_round_responses_fields jp (call rn) (rn + 1) question models
    rw [hlr] at hfields
    have hget : (lastR.responses.map
        (fun r => (r.model_name, r.response, r.error))).get? k =
        some (m.value, (call rn m question).response, (call rn m question).error) := by
      rw [hfields, List.get?_map, hm_get]
      rfl
    rw [List.get?_map] at hget
    obtain ⟨w, hw_get, hw_trip⟩ := Option.map_eq_some'.mp hget
    have hw_name : w.model_name = m.value := congrArg (fun t => t.1) hw_trip
    have hnames : lastR.responses.map ModelResponse.model_name =
        models.map ModelType.value := by
      have h1 := congrArg (List.map Prod.fst) hfields
      simpa [List.map_map] using h1
    have hwname_winner : w.model_name = battle_winner (battle_final_scores models
        (battle_rounds jp call question models num_rounds)) := by
      rw [hw_name, hwinner, hp1]
    have hfind := find_first_by_name lastR.responses k w hw_get (by rw [hnames]; exact hnd)
    refine ⟨lastR, w, hlast, List.get?_mem hw_get, hwname_winner, ?_⟩
    show (match lastR.responses.find? (fun r =>
        r.model_name == battle_winner (battle_final_scores models
          (battle_rounds jp call question models num_rounds)) &&
        r.error.isNone) with
      | some r => r.response
      | none => "") = _
    rw [← hwname_winner, hfind]
    by_cases he : w.error.isNone
    · rw [if_pos he, if_pos he]
    · rw [if_neg he, if_neg he]

/-- Witness for C4: two distinct models, one round. -/
theorem battle_finalization_witness :
    ([ModelType.dashscope_qwen, ModelType.dashscope_qwen_max] ≠
      ([] : List ModelType)) ∧
    ([ModelType.dashscope_qwen, ModelType.dashscope_qwen_max].map
      ModelType.value).Nodup ∧
    (1 ≤ 1) ∧
    (∃ result, battle jpOk80 (fun _ => okCall) "T" "Q"
        [ModelType.dashscope_qwen, ModelType.dashscope_qwen_max] 1 = some result ∧
      (∀ m ∈ [ModelType.dashscope_qwen, ModelType.dashscope_qwen_max],
        dictGet result.final_scores m.value = some (total_score result m)) ∧
      (∃ k m, [ModelType.dashscope_qwen, ModelType.dashscope_qwen_max].get? k =
          some m ∧ result.final_winner = m.value ∧
        (∀ j m', [ModelType.dashscope_qwen, ModelType.dashscope_qwen_max].get? j =
            some m' → total_score result m' ≤ total_score result m) ∧
        (∀ j m', j < k →
          [ModelType.dashscope_qwen, ModelType.dashscope_qwen_max].get? j =
            some m' → total_score result m' < total_score result m)) ∧
      (∃ lastR w, result.rounds.getLast? = some lastR ∧ w ∈ lastR.responses ∧
        w.model_name = result.final_winner ∧
        result.final_answer = (if w.error.isNone then w.response else ""))) :=
  ⟨by decide, by decide, by decide,
    battle_finalization jpOk80 (fun _ => okCall) "T" "Q"
      [ModelType.dashscope_qwen, ModelType.dashscope_qwen_max] 1
      (by decide) (by decide) (by decide)⟩

/-- C5: in a battle round in which fewer than two models produced
error-free answers, every model's round score is exactly 0 and no scoring
Gateway calls are issued. -/
theorem battle_round_insufficient_valid
    (jp : String → JsonOutcome) (call : ModelType → String → CallOut)
    (round_number : Nat) (question : String) (models : List ModelType)
    (h : ((models.map (fun m => call_model call m question)).filter
        (fun r => r.error.isNone)).length < 2) :
    (battle_round jp call round_number question models).2 = [] ∧
    ∀ m ∈ models,
      dictGet (battle_round jp call round_number question models).1.scores m.value =
        some 0 := by
  have hb : battle_round jp call round_number question models =
      ({ round_number := round_number,
         responses := models.map (fun m => call_model call m question),
         scores := (models.map (fun m => call_model call m question)).foldl
           (fun d r => dictInsert r.model_name 0 d) [] }, []) := by
    unfold battle_round
    rw [if_pos h]
  refine ⟨by rw [hb], ?_⟩
  intro m hm
  rw [hb]
  refine dictGet_fold_zero _ _ _ (Or.inr ?_)
  simp only [List.map_map]
  exact List.mem_map.mpr ⟨m, hm, rfl⟩

/-- Witness for C5: with both models failing their answer calls, the round
issues no scoring call and scores both models 0. -/
theorem battle_round_insufficient_valid_witness :
    ((([ModelType.dashscope_qwen, ModelType.dashscope_qwen_max].map
        (fun m => call_model errCall m "Q")).filter
        (fun r => r.error.isNone)).length < 2) ∧
    ((battle_round jpDecodeError errCall 1 "Q"
        [ModelType.dashscope_qwen, ModelType.dashscope_qwen_max]).2 = [] ∧
      ∀ m ∈ [ModelType.dashscope_qwen, ModelType.dashscope_qwen_max],
        dictGet (battle_round jpDecodeError errCall 1 "Q"
          [ModelType.dashscope_qwen, ModelType.dashscope_qwen_max]).1.scores m.value =
          some 0) :=
  ⟨by decide, battle_round_insufficient_valid jpDecodeError errCall 1 "Q" _ (by decide)⟩

/-- C10: `battle` returns a `BattleResult` exactly when the model list is
empty or at least one round is requested; with a non-empty model list and
`num_rounds = 0` the winner is a real model name, `rounds[-1]` raises
`IndexError`, and no result is produced. -/
theorem battle_isSome_iff (jp : String → JsonOutcome)
    (call : Nat → ModelType → String → CallOut) (timestamp question : String)
    (models : List ModelType) (num_rounds : Nat) :
    (battle jp call timestamp question models num_rounds).isSome = true ↔
      (models = [] ∨ 1 ≤ num_rounds) := by
  constructor
  · intro h
    by_cases hm : models = []
    · exact Or.inl hm
    · by_cases hr : 1 ≤ num_rounds
      · exact Or.inr hr
      · exfalso
        have hn0 : num_rounds = 0 := by omega
        subst hn0
        have hrounds : battle_rounds jp call question models 0 = [] := by
          simp [battle_rounds]
        have hw := battle_winner_mem_values models
          (battle_rounds jp call question models 0) hm
        rcases List.mem_map.mp hw with ⟨m, _, hmv⟩
        have hne : ¬ (battle_winner (battle_final_scores models
            (battle_rounds jp call question models 0)) = "无获胜者") := by
          rw [← hmv]; exact value_ne_no_winner m
        rw [battle] at h
        simp only [hne, if_false, hrounds, List.getLast?] at h
        rw [hrounds] at hne
        simp at h
        exact hne h
  · intro h
    rcases h with hm | hr
    · subst hm
      have : battle_winner (battle_final_scores []
          (battle_rounds jp call question [] num_rounds)) = "无获胜者" := by
        simp [battle_final_scores, battle_winner, pyMax]
      rw [battle]
      simp [this]
    · have hrne : battle_rounds jp call question models num_rounds ≠ [] := by
        simp only [battle_rounds]
        intro hcon
        rcases List.map_eq_nil_iff.mp hcon with hcon'
        have : num_rounds = 0 := by simpa [List.range_eq_nil] using hcon'
        omega
      rw [battle]
      by_cases hw : battle_winner (battle_final_scores models
          (battle_rounds jp call question models num_rounds)) = "无获胜者"
      · simp [hw]
      · rcases hl : (battle_rounds jp call question models num_rounds).getLast? with _ | lastR
        · exact absurd (List.getLast?_eq_none_iff.mp hl) hrne
        · simp [hw, hl]

end MCP
